import Mathlib

/-!
Verification development for the llm_evaluator backend service.

Python values, dictionaries and functions from the repository are shallowly
embedded as Lean definitions.  Python dicts are modelled as association lists
over a small inductive type of Python values; `datetime` instants are modelled
as integers (seconds); MongoDB collections are modelled as lists of documents.
Library boundaries (base64+JSON decoding, MD5, tool execution, the upstream
LLM stream) are modelled as explicit function parameters or abstract data.
-/

/-- Model of a Python runtime value, as needed by the embedded code. -/
inductive PyV where
  | null
  | bool (b : Bool)
  | int (n : Int)
  | str (s : String)
  | list (xs : List PyV)
  | dict (kvs : List (String × PyV))
deriving Repr

mutual
/-- Structural equality on modelled Python values (Python `==`/`!=`). -/
def PyV.beq : PyV → PyV → Bool
  | .null, .null => true
  | .bool a, .bool b => a == b
  | .int a, .int b => a == b
  | .str a, .str b => a == b
  | .list xs, .list ys => PyV.beqList xs ys
  | .dict xs, .dict ys => PyV.beqKVs xs ys
  | _, _ => false
/-- Structural equality on lists of modelled Python values. -/
def PyV.beqList : List PyV → List PyV → Bool
  | [], [] => true
  | x :: xs, y :: ys => PyV.beq x y && PyV.beqList xs ys
  | _, _ => false
/-- Structural equality on string-keyed association lists of values. -/
def PyV.beqKVs : List (String × PyV) → List (String × PyV) → Bool
  | [], [] => true
  | (k1, v1) :: xs, (k2, v2) :: ys =>
    k1 == k2 && PyV.beq v1 v2 && PyV.beqKVs xs ys
  | _, _ => false
end

instance : BEq PyV := ⟨PyV.beq⟩

/-- Python truthiness (`bool(v)`) for the modelled values. -/
def pyTruthy : PyV → Bool
  | .null => false
  | .bool b => b
  | .int n => n != 0
  | .str s => s != ""
  | .list xs => !xs.isEmpty
  | .dict kvs => !kvs.isEmpty

/-- A modelled Python dict: association list with string keys.  `dictGet`
models `d.get(k)` / `k in d` (keys are unique in a Python dict, so the first
binding is the binding). -/
def dictGet (kvs : List (String × PyV)) (k : String) : Option PyV :=
  (kvs.find? (fun kv => kv.1 == k)).map (·.2)

/-- The set of characters Python's `str.strip()` / `\s` treats as whitespace
(ASCII fragment, which covers the repository's data). -/
def isPyWs (c : Char) : Bool :=
  c == ' ' || c == '\t' || c == '\n' || c == '\r' || c == '\x0b' || c == '\x0c'

/-- Python `s.strip()` on a string modelled as a character list. -/
def pyStrip (s : List Char) : List Char :=
  ((s.dropWhile isPyWs).reverse.dropWhile isPyWs).reverse

/-- Python `not s.strip()`: the string contains only whitespace (or is empty). -/
def pyStripEmpty (s : String) : Bool :=
  (pyStrip s.toList).isEmpty

/-!
## 4.4 Prompt/message utilities — `convert_to_openai_messages`
Source: src/api/utils/prompt.py lines 8-42.
A client message is a Python dict (association list).
-/

/-- The default system message returned when no usable message survives.
Source: prompt.py lines 15 and 40. -/
def defaultSystemMessage : List (String × PyV) :=
  [("role", .str "system"), ("content", .str "You are a helpful assistant.")]

/-- The loop of prompt.py lines 32-34: append each of the four optional fields
that is present in the incoming message to the built OpenAI message. -/
def appendOptionalFields (message base : List (String × PyV)) :
    List (String × PyV) :=
  ["name", "function_call", "tool_call_id", "tool_calls"].foldl
    (fun acc f =>
      match dictGet message f with
      | some v => acc ++ [(f, v)]
      | none => acc)
    base

/-- One iteration of the conversion loop: `none` means the message is skipped
(`continue`).  Source: prompt.py lines 20-36. -/
def convertOneMessage (message : List (String × PyV)) :
    Option (List (String × PyV)) :=
  match dictGet message "role" with
  | none => none            -- "role" not in message
  | some role =>
    match dictGet message "content" with
    | none => none          -- message.get("content") is None (key absent)
    | some content =>
      match content with
      | .null => none       -- message.get("content") is None (stored None)
      | .str s =>
        if pyStripEmpty s then none   -- whitespace-only string content
        else some (appendOptionalFields message
          [("role", role), ("content", content)])
      | _ => some (appendOptionalFields message
          [("role", role), ("content", content)])

/-- `convert_to_openai_messages(messages)` — prompt.py lines 8-42. -/
def convert_to_openai_messages (messages : List (List (String × PyV))) :
    List (List (String × PyV)) :=
  if messages.isEmpty then [defaultSystemMessage]
  else
    let result := messages.filterMap convertOneMessage
    if result.isEmpty then [defaultSystemMessage] else result

/-!
Spec-side formulation of claim C8, written from the specification's words:
a message is dropped exactly when it lacks a role or its content is absent or
a whitespace-only string; survivors keep role, content and the present
optional fields, in their original relative order; empty results are replaced
by the single default system message.
-/

/-- Claim C8's drop criterion, from the spec's words. -/
def specDropsMessage (message : List (String × PyV)) : Bool :=
  (dictGet message "role").isNone ||
    (match dictGet message "content" with
     | none => true
     | some .null => true
     | some (.str s) => pyStripEmpty s
     | some _ => false)

/-- Claim C8's projection of a surviving message, from the spec's words. -/
def specKeptFields (message : List (String × PyV)) : List (String × PyV) :=
  (["role", "content"].filterMap
      (fun f => (dictGet message f).map (fun v => (f, v)))) ++
    (["name", "function_call", "tool_call_id", "tool_calls"].filterMap
      (fun f => (dictGet message f).map (fun v => (f, v))))

/-- Claim C8's description of the whole function, from the spec's words. -/
def convertMessagesSpec (messages : List (List (String × PyV))) :
    List (List (String × PyV)) :=
  let kept := (messages.filter (fun m => !specDropsMessage m)).map specKeptFields
  if kept.isEmpty then [defaultSystemMessage] else kept

lemma convertOne_eq_spec (m : List (String × PyV)) :
    convertOneMessage m =
      if specDropsMessage m then none else some (specKeptFields m) := by
  unfold convertOneMessage specDropsMessage specKeptFields appendOptionalFields
  cases hr : dictGet m "role" with
  | none => simp
  | some role =>
    cases hc : dictGet m "content" with
    | none => simp
    | some content =>
      cases content <;>
        simp [hr, hc, List.filterMap, List.foldl] <;>
        (try split) <;>
        simp_all [List.filterMap, List.foldl] <;>
        cases dictGet m "name" <;>
        cases dictGet m "function_call" <;>
        cases dictGet m "tool_call_id" <;>
        cases dictGet m "tool_calls" <;> simp

/-- C8: `convert_to_openai_messages` drops exactly the messages lacking a role
or whose content is absent or a whitespace-only string, keeps the survivors in
order with role, content and the present optional fields, and returns the
single default system message when the input is empty or everything is
dropped, so the result is never empty. -/
theorem C8_convert_to_openai_messages_spec
    (messages : List (List (String × PyV))) :
    convert_to_openai_messages messages = convertMessagesSpec messages ∧
      convert_to_openai_messages messages ≠ [] := by
  have h : messages.filterMap convertOneMessage =
      (messages.filter (fun m => !specDropsMessage m)).map specKeptFields := by
    induction messages with
    | nil => rfl
    | cons m ms ih =>
      simp only [List.filterMap_cons, List.filter_cons, convertOne_eq_spec]
      by_cases hd : specDropsMessage m <;> simp [hd, ih]
  constructor
  · unfold convert_to_openai_messages convertMessagesSpec
    rw [h]
    cases messages with
    | nil => simp
    | cons m ms => simp
  · unfold convert_to_openai_messages
    cases hm : messages.isEmpty <;> simp [hm]
    split <;> simp_all

/-!
## 4.9 Authentication middleware — `verify_clerk_token`
Source: src/api/middleware/user_middleware.py lines 24-61.

`json.loads(base64.urlsafe_b64decode(payload))` is a library boundary: it is
modelled as an explicit `decodePayload` parameter mapping the padded middle
segment to the decoded JSON object (an association list), with `none` for any
decode failure (the inner `except` branch).
-/

/-- Python `token.split('.')`: split on every dot, keeping empty parts
(`"".split('.') == ['']`). -/
def pySplitDotAux (acc : List Char) : List Char → List String
  | [] => [String.mk acc.reverse]
  | '.' :: rest => String.mk acc.reverse :: pySplitDotAux [] rest
  | c :: rest => pySplitDotAux (c :: acc) rest

/-- Python `token.split('.')` on a string. -/
def pySplitDot (s : String) : List String :=
  pySplitDotAux [] s.toList

/-- Padding step of user_middleware.py lines 34-36: add `=` until the length
is a multiple of 4. -/
def padBase64 (payload : String) : String :=
  let padding := payload.length % 4
  if padding ≠ 0 then payload ++ String.mk (List.replicate (4 - padding) '=')
  else payload

/-- The claim-extraction loop of user_middleware.py lines 46-49: return the
value of the first key that is present (`if key in decoded`) in the decoded
payload, scanning the keys in the source's order. -/
def firstPresentClaim (keys : List String) (decoded : List (String × PyV)) :
    Option PyV :=
  match keys with
  | [] => none
  | k :: rest =>
    match dictGet decoded k with
    | some v => some v
    | none => firstPresentClaim rest decoded

/-- `verify_clerk_token(token)` — user_middleware.py lines 24-61.  The source
returns the dict `{"id": v}` on success and `{}` otherwise; this is modelled
as `some v` / `none`. -/
def verify_clerk_token
    (decodePayload : String → Option (List (String × PyV)))
    (token : String) : Option PyV :=
  match pySplitDot token with
  | [_, payload, _] =>
    match decodePayload (padBase64 payload) with
    | some decoded =>
      firstPresentClaim ["sub", "user_id", "id", "userId", "clerk_id", "azp"]
        decoded
    | none => none            -- json/base64 failure: caught, returns {}
  | _ => none                 -- not exactly 3 dot-separated parts

/-- Claim C4's description of the token check, written from the spec's words:
after the 3-part check and the same padding/decoding, return the value of the
first *populated* claim in the priority order
sub, azp, user_id, id, userId, email, clerk_id. -/
def verify_clerk_token_claim
    (decodePayload : String → Option (List (String × PyV)))
    (token : String) : Option PyV :=
  match pySplitDot token with
  | [_, payload, _] =>
    match decodePayload (padBase64 payload) with
    | some decoded =>
      (["sub", "azp", "user_id", "id", "userId", "email", "clerk_id"].filterMap
          (fun k => dictGet decoded k)).find? pyTruthy
    | none => none
  | _ => none

/-- Amended claim C4's extraction rule: the first claim that is *present*
(whether or not its value is populated), in the order
sub, user_id, id, userId, clerk_id, azp; `email` is never consulted. -/
def verify_clerk_token_amended
    (decodePayload : String → Option (List (String × PyV)))
    (token : String) : Option PyV :=
  match pySplitDot token with
  | [_, payload, _] =>
    match decodePayload (padBase64 payload) with
    | some decoded =>
      (["sub", "user_id", "id", "userId", "clerk_id", "azp"].find?
          (fun k => (dictGet decoded k).isSome)).bind
        (fun k => dictGet decoded k)
    | none => none
  | _ => none

/-- Decode stub for the C4 counterexample: the padded middle segment of the
first token decodes to a payload whose `sub` is the empty string and which
carries `azp` and `user_id`; the second token's payload carries only `email`. -/
def c4Decode : String → Option (List (String × PyV)) :=
  fun s =>
    if s = padBase64 "payloadA" then
      some [("sub", .str ""), ("azp", .str "A"), ("user_id", .str "B")]
    else if s = padBase64 "payloadB" then
      some [("email", .str "dana@example.com")]
    else none

/-- C4 counterexample: on a 3-part token whose payload is
`{"sub": "", "azp": "A", "user_id": "B"}` the code resolves the present but
unpopulated `sub` claim (value `""`), while the claim's priority rule
(first populated among sub, azp, user_id, ...) resolves `"A"`; and on a
payload carrying only `email` the code resolves no identity while the claim's
rule resolves the email value.  So the claimed priority order and the
"populated" qualifier are both wrong for this code. -/
theorem C4_counterexample :
    verify_clerk_token c4Decode "h.payloadA.s" = some (.str "") ∧
      verify_clerk_token_claim c4Decode "h.payloadA.s" = some (.str "A") ∧
      verify_clerk_token c4Decode "h.payloadB.s" = none ∧
      verify_clerk_token_claim c4Decode "h.payloadB.s" =
        some (.str "dana@example.com") ∧
      some (PyV.str "") ≠ some (PyV.str "A") ∧
      (none : Option PyV) ≠ some (.str "dana@example.com") := by
  refine ⟨by rfl, by rfl, by rfl, by rfl, by simp, by simp⟩

/-- C4 (amended): `verify_clerk_token` resolves no identity unless the token
has exactly 3 dot-separated parts; otherwise it decodes the `=`-padded middle
part, and returns the value of the first *present* claim in the priority
order sub, user_id, id, userId, clerk_id, azp (`email` is not consulted);
decode failure or absence of all such claims yields no identity rather than a
raised error. -/
lemma firstPresentClaim_eq (keys : List String)
    (decoded : List (String × PyV)) :
    firstPresentClaim keys decoded =
      (keys.find? (fun k => (dictGet decoded k).isSome)).bind
        (fun k => dictGet decoded k) := by
  induction keys with
  | nil => rfl
  | cons k rest ih =>
    cases h : dictGet decoded k <;>
      simp [firstPresentClaim, h, List.find?_cons, ih]

/-- C4 (amended): `verify_clerk_token` resolves no identity unless the token
has exactly 3 dot-separated parts; otherwise it decodes the `=`-padded middle
part, and returns the value of the first *present* claim in the priority
order sub, user_id, id, userId, clerk_id, azp (`email` is not consulted);
decode failure or absence of all such claims yields no identity rather than a
raised error. -/
theorem C4_verify_clerk_token_amended
    (decodePayload : String → Option (List (String × PyV)))
    (token : String) :
    verify_clerk_token decodePayload token =
      verify_clerk_token_amended decodePayload token := by
  simp only [verify_clerk_token, verify_clerk_token_amended,
    firstPresentClaim_eq]

/-!
## 4.8 Chat-history persistence service
Source: src/api/service/chat_history_service.py.

Messages handled by this service are dicts; the claims under verification
concern textual transcripts, so a message is modelled by its `id`, `role` and
`content` entries, with the source's `.get` defaults already applied
(`role`/`content` default to `""`, `id` to absent).  Times are integer
seconds; MongoDB's `chat_history` collection is a list of documents, and the
generated object id of an insert is modelled as the decimal rendering of the
collection size at insert time.
-/

/-- One chat message as seen by the persistence / streaming services. -/
structure Msg where
  id : Option String := none
  role : String := ""
  content : String := ""
deriving Repr, DecidableEq

/-- One persisted `chat_history` document (the fields the claims touch). -/
structure HDoc where
  docId : String
  clerk_id : String
  title : Option String
  messages : List Msg
  model : String
  created_at : Int
  updated_at : Int
  fingerprint : Option String := none
  error : Option String := none
deriving Repr, DecidableEq

/-- The reverse scan of chat_history_service.py lines 55-67: walk the
reversed message list, record the first user message as `U:<first 100 chars>`
and the first assistant message as `A:<first 100 chars>` in discovery order,
and stop once both are found. -/
def fingerprintScan : List Msg → Bool → Bool → List String
  | [], _, _ => []
  | m :: rest, userFound, assistantFound =>
    if m.role = "user" ∧ ¬userFound then
      let entry := "U:" ++ (m.content.take 100)
      if assistantFound then [entry]
      else entry :: fingerprintScan rest true assistantFound
    else if m.role = "assistant" ∧ ¬assistantFound then
      let entry := "A:" ++ (m.content.take 100)
      if userFound then [entry]
      else fingerprintScan rest userFound true |>.cons entry
    else
      fingerprintScan rest userFound assistantFound

/-- The fingerprint entries for a message list (scan in reverse, lines 50-67). -/
def fingerprintParts (messages : List Msg) : List String :=
  fingerprintScan messages.reverse false false

/-- The fingerprint string computed by `save_chat_history` when the message
list has at least 2 entries (lines 48-71): the `"|"`-join of the scan's
entries, absent when no user/assistant message was found or fewer than 2
messages were supplied. -/
def fingerprint_str (messages : List Msg) : Option String :=
  if 2 ≤ messages.length then
    match fingerprintParts messages with
    | [] => none
    | parts => some (String.intercalate "|" parts)
  else none

/-- Title derivation of chat_history_service.py lines 104-114: first 30
characters (after strip) of the first user message with non-blank string
content, with `"..."` when the un-stripped content is longer than 30, else a
timestamp fallback. -/
def deriveTitle (now : Int) (messages : List Msg) : String :=
  match messages.find? (fun m => m.role == "user" && !(pyStripEmpty m.content)) with
  | some m =>
    let t := String.mk (pyStrip m.content.toList) |>.take 30
    t ++ (if 30 < m.content.length then "..." else "")
  | none => "Chat " ++ toString now

/-- The `if not title and processed_messages:` guard of line 103: the title is
derived only when the supplied title is falsy and the message list is
non-empty; otherwise the supplied value is stored as-is. -/
def finalTitle (now : Int) (title : Option String) (messages : List Msg) :
    Option String :=
  if (title.getD "") = "" then
    if messages.isEmpty then title else some (deriveTitle now messages)
  else title

/-- Result of a save call: the returned string (an object id or the
`"duplicate"` sentinel) together with the updated collection. -/
structure SaveResult where
  result : String
  db : List HDoc
deriving Repr, DecidableEq

/-- `save_chat_history(clerk_id, messages, model, title, usage, error,
metadata)` — chat_history_service.py lines 21-158.  `now` models
`datetime.now()` for this call.  The duplicate check (lines 48-80) counts
documents of the same owner carrying the same fingerprint created within the
last 5 minutes and returns the `"duplicate"` sentinel without inserting when
one exists; otherwise the document is inserted and its id returned.  The
`usage`, `metadata` and `last_message` fields are elided: no claim under
verification reads them. -/
def insertedDoc (now : Int) (db : List HDoc) (clerk_id : String)
    (messages : List Msg) (model : String) (title : Option String)
    (error : Option String) (fp : Option String) : HDoc where
  docId := toString db.length
  clerk_id := clerk_id
  title := finalTitle now title messages
  messages := messages
  model := model
  created_at := now
  updated_at := now
  fingerprint := fp
  error := error

def save_chat_history (now : Int) (db : List HDoc) (clerk_id : String)
    (messages : List Msg) (model : String := "gpt-4o")
    (title : Option String := none) (error : Option String := none) :
    SaveResult :=
  match fingerprint_str messages with
  | some fp =>
    let existing_count := db.countP
      (fun d => d.clerk_id = clerk_id ∧ d.fingerprint = some fp ∧
        now - 300 ≤ d.created_at)
    if 0 < existing_count then { result := "duplicate", db := db }
    else
      let doc := insertedDoc now db clerk_id messages model title error
        (some fp)
      { result := doc.docId, db := db ++ [doc] }
  | none =>
    let doc := insertedDoc now db clerk_id messages model title error none
    { result := doc.docId, db := db ++ [doc] }

/-!
Claim C7 concerns the fingerprint construction.  The claim-side and
amended-side formulations are written from the spec's words: both take the
last user-role and last assistant-role messages found scanning in reverse,
truncated to 100 characters; they differ in the join order of the two parts.
-/

/-- The last message of a given role (reverse scan, first occurrence wins). -/
def lastOfRole (messages : List Msg) (role : String) : Option Msg :=
  messages.reverse.find? (fun m => m.role == role)

/-- Claim C7's construction, exactly as the claim words it: the `U:` part
first, then the `A:` part, `"|"`-separated, omitting a missing side. -/
def fingerprint_str_claim (messages : List Msg) : Option String :=
  if 2 ≤ messages.length then
    let parts :=
      ((lastOfRole messages "user").map
          (fun m => "U:" ++ m.content.take 100)).toList ++
        ((lastOfRole messages "assistant").map
          (fun m => "A:" ++ m.content.take 100)).toList
    match parts with
    | [] => none
    | ps => some (String.intercalate "|" ps)
  else none

/-- Amended claim C7's entries: the part for whichever of the two roles
occurs later in the list comes first (reverse-scan discovery order), the
other part follows. -/
def fingerprintPartsAmended (messages : List Msg) : List String :=
  match messages.reverse.find?
      (fun m => m.role == "user" || m.role == "assistant") with
  | none => []
  | some m =>
    if m.role == "user" then
      ("U:" ++ m.content.take 100) ::
        ((lastOfRole messages "assistant").map
          (fun a => "A:" ++ a.content.take 100)).toList
    else
      ("A:" ++ m.content.take 100) ::
        ((lastOfRole messages "user").map
          (fun u_ => "U:" ++ u_.content.take 100)).toList

/-- Amended claim C7's fingerprint string. -/
def fingerprint_str_amended (messages : List Msg) : Option String :=
  if 2 ≤ messages.length then
    match fingerprintPartsAmended messages with
    | [] => none
    | ps => some (String.intercalate "|" ps)
  else none

lemma fingerprintScan_user_found (l : List Msg) :
    fingerprintScan l true false =
      ((l.find? (fun m => m.role == "assistant")).map
        (fun a => "A:" ++ a.content.take 100)).toList := by
  induction l with
  | nil => rfl
  | cons m rest ih =>
    by_cases ha : m.role = "assistant" <;>
      simp [fingerprintScan, ha, List.find?_cons, ih]

lemma fingerprintScan_assistant_found (l : List Msg) :
    fingerprintScan l false true =
      ((l.find? (fun m => m.role == "user")).map
        (fun u_ => "U:" ++ u_.content.take 100)).toList := by
  induction l with
  | nil => rfl
  | cons m rest ih =>
    by_cases hu : m.role = "user" <;>
      simp [fingerprintScan, hu, List.find?_cons, ih]

lemma fingerprintScan_eq_amended (l : List Msg) :
    fingerprintScan l false false =
      (match l.find? (fun m => m.role == "user" || m.role == "assistant") with
       | none => []
       | some m =>
         if m.role == "user" then
           ("U:" ++ m.content.take 100) ::
             ((l.find? (fun x => x.role == "assistant")).map
               (fun a => "A:" ++ a.content.take 100)).toList
         else
           ("A:" ++ m.content.take 100) ::
             ((l.find? (fun x => x.role == "user")).map
               (fun u_ => "U:" ++ u_.content.take 100)).toList) := by
  induction l with
  | nil => rfl
  | cons m rest ih =>
    by_cases hu : m.role = "user"
    · simp [fingerprintScan, hu, List.find?_cons, fingerprintScan_user_found]
    · by_cases ha : m.role = "assistant"
      · simp [fingerprintScan, hu, ha, List.find?_cons,
          fingerprintScan_assistant_found]
      · simp [fingerprintScan, hu, ha, List.find?_cons, ih]

lemma fingerprintParts_eq_amended (messages : List Msg) :
    fingerprintParts messages = fingerprintPartsAmended messages := by
  unfold fingerprintParts fingerprintPartsAmended lastOfRole
  rw [fingerprintScan_eq_amended]

lemma fingerprint_str_eq_amended (messages : List Msg) :
    fingerprint_str messages = fingerprint_str_amended messages := by
  unfold fingerprint_str fingerprint_str_amended
  rw [fingerprintParts_eq_amended]

set_option maxRecDepth 4096 in
/-- C7 counterexample: for the two-message transcript
user:"hi", assistant:"yo" the fingerprint computed (and stored and compared)
by `save_chat_history` is `"A:yo|U:hi"`, whereas the claim's construction
joins the parts as `"U:hi|A:yo"`; the two strings differ. -/
theorem C7_counterexample :
    fingerprint_str
        [{ role := "user", content := "hi" },
         { role := "assistant", content := "yo" }] = some "A:yo|U:hi" ∧
      fingerprint_str_claim
        [{ role := "user", content := "hi" },
         { role := "assistant", content := "yo" }] = some "U:hi|A:yo" ∧
      some "A:yo|U:hi" ≠ some "U:hi|A:yo" := by
  refine ⟨by decide, by decide, by decide⟩

/-- C7 (amended): for every message list with at least 2 entries the
fingerprint string used by `save_chat_history` is built from the last
user-role and last assistant-role messages found scanning in reverse, each
truncated to its first 100 characters, `"|"`-joined with the part of the role
occurring later in the list first and the side that is missing omitted. -/
theorem C7_fingerprint_amended (messages : List Msg) :
    fingerprint_str messages = fingerprint_str_amended messages :=
  fingerprint_str_eq_amended messages

/-!
Claim C3: duplicate suppression across two `save_chat_history` calls.
-/

lemma find?_or_left {α : Type} (p q : α → Bool) (l : List α) (x : α)
    (h : l.find? (fun m => p m || q m) = some x) (hx : p x = true) :
    l.find? p = some x := by
  induction l with
  | nil => simp at h
  | cons a rest ih =>
    rw [List.find?_cons] at h ⊢
    cases hpa : p a with
    | true => simp [hpa] at h ⊢; simp [← h]
    | false =>
      cases hqa : q a with
      | true =>
        simp [hpa, hqa] at h
        rw [← h] at hx
        rw [hx] at hpa
        simp at hpa
      | false =>
        simp [hpa, hqa] at h ⊢
        exact ih h

lemma fingerprint_str_of_matching (m1 m2 : List Msg) (u1 u2 a1 a2 : Msg)
    (h1 : 2 ≤ m1.length) (h2 : 2 ≤ m2.length)
    (hu1 : lastOfRole m1 "user" = some u1)
    (hu2 : lastOfRole m2 "user" = some u2)
    (ha1 : lastOfRole m1 "assistant" = some a1)
    (ha2 : lastOfRole m2 "assistant" = some a2)
    (hcu : u1.content.take 100 = u2.content.take 100)
    (hca : a1.content.take 100 = a2.content.take 100)
    (hord : (m1.reverse.find?
        (fun m => m.role == "user" || m.role == "assistant")).map Msg.role =
      (m2.reverse.find?
        (fun m => m.role == "user" || m.role == "assistant")).map Msg.role) :
    fingerprint_str m1 = fingerprint_str m2 ∧
      (fingerprint_str m1).isSome = true := by
  have hx1 : ∃ x, m1.reverse.find?
      (fun m => m.role == "user" || m.role == "assistant") = some x := by
    have hm := List.mem_of_find?_eq_some hu1
    have hp := List.find?_some hu1
    have : (m1.reverse.find?
        (fun m => m.role == "user" || m.role == "assistant")).isSome := by
      rw [List.find?_isSome]
      exact ⟨u1, hm, by simp [hp]⟩
    exact Option.isSome_iff_exists.mp this
  have hx2 : ∃ x, m2.reverse.find?
      (fun m => m.role == "user" || m.role == "assistant") = some x := by
    have hm := List.mem_of_find?_eq_some hu2
    have hp := List.find?_some hu2
    have : (m2.reverse.find?
        (fun m => m.role == "user" || m.role == "assistant")).isSome := by
      rw [List.find?_isSome]
      exact ⟨u2, hm, by simp [hp]⟩
    exact Option.isSome_iff_exists.mp this
  obtain ⟨x1, hfx1⟩ := hx1
  obtain ⟨x2, hfx2⟩ := hx2
  have hrole : x1.role = x2.role := by
    rw [hfx1, hfx2] at hord
    simpa using hord
  have hx1p := List.find?_some hfx1
  rw [fingerprint_str_eq_amended, fingerprint_str_eq_amended]
  unfold fingerprint_str_amended fingerprintPartsAmended
  rw [hfx1, hfx2]
  by_cases hxu : x1.role = "user"
  · have hxu2 : x2.role = "user" := by rw [← hrole]; exact hxu
    have hfu1 : m1.reverse.find? (fun m => m.role == "user") = some x1 :=
      find?_or_left _ _ _ _ hfx1 (by simp [hxu])
    have hfu2 : m2.reverse.find? (fun m => m.role == "user") = some x2 :=
      find?_or_left _ _ _ _ hfx2 (by simp [hxu2])
    have he1 : x1 = u1 := by
      unfold lastOfRole at hu1
      rw [hfu1] at hu1
      exact Option.some.inj hu1
    have he2 : x2 = u2 := by
      unfold lastOfRole at hu2
      rw [hfu2] at hu2
      exact Option.some.inj hu2
    subst he1 he2
    simp [hxu, hxu2, h1, h2, ha1, ha2, hcu, hca]
  · have hxa : x1.role = "assistant" := by
      rcases Bool.or_eq_true_iff.mp hx1p with h | h
      · exact absurd (by simpa using h) hxu
      · simpa using h
    have hxa2 : x2.role = "assistant" := by rw [← hrole]; exact hxa
    have hxu2 : ¬ x2.role = "user" := by
      rw [hxa2]; intro hcon; simp at hcon
    have hfunswap : (fun (m : Msg) => m.role == "assistant" || m.role == "user")
        = (fun (m : Msg) => m.role == "user" || m.role == "assistant") := by
      funext m
      exact Bool.or_comm _ _
    have hswap1 : m1.reverse.find?
        (fun m => m.role == "assistant" || m.role == "user") = some x1 := by
      rw [hfunswap]
      exact hfx1
    have hswap2 : m2.reverse.find?
        (fun m => m.role == "assistant" || m.role == "user") = some x2 := by
      rw [hfunswap]
      exact hfx2
    have hfa1 : m1.reverse.find? (fun m => m.role == "assistant") = some x1 :=
      find?_or_left _ _ _ _ hswap1 (by simp [hxa])
    have hfa2 : m2.reverse.find? (fun m => m.role == "assistant") = some x2 :=
      find?_or_left _ _ _ _ hswap2 (by simp [hxa2])
    have he1 : x1 = a1 := by
      unfold lastOfRole at ha1
      rw [hfa1] at ha1
      exact Option.some.inj ha1
    have he2 : x2 = a2 := by
      unfold lastOfRole at ha2
      rw [hfa2] at ha2
      exact Option.some.inj ha2
    subst he1 he2
    simp [hxu, hxu2, hxa, hxa2, h1, h2, hu1, hu2, hcu, hca]

set_option maxRecDepth 8192 in
/-- C3 counterexample: the first save stores messages ending with the user
turn (assistant:"yo" then user:"hi"); the second save, one minute later for
the same user, carries the same last user message ("hi") and the same last
assistant message ("yo") but in the usual order (user then assistant).  Both
truncated tails match, yet the fingerprints are "U:hi|A:yo" and "A:yo|U:hi",
so the second call inserts a second document and does not return the
`"duplicate"` sentinel, refuting the claim as stated. -/
theorem C3_counterexample :
    (2 ≤ ([{ role := "assistant", content := "yo" },
           { role := "user", content := "hi" }] : List Msg).length) ∧
    (2 ≤ ([{ role := "user", content := "hi" },
           { role := "assistant", content := "yo" }] : List Msg).length) ∧
    ((lastOfRole [{ role := "assistant", content := "yo" },
        { role := "user", content := "hi" }] "user").map
          (fun m => m.content.take 100) =
      (lastOfRole [{ role := "user", content := "hi" },
        { role := "assistant", content := "yo" }] "user").map
          (fun m => m.content.take 100)) ∧
    ((lastOfRole [{ role := "assistant", content := "yo" },
        { role := "user", content := "hi" }] "assistant").map
          (fun m => m.content.take 100) =
      (lastOfRole [{ role := "user", content := "hi" },
        { role := "assistant", content := "yo" }] "assistant").map
          (fun m => m.content.take 100)) ∧
    ((save_chat_history 0 [] "userA"
        [{ role := "assistant", content := "yo" },
         { role := "user", content := "hi" }]).result ≠ "duplicate") ∧
    ((save_chat_history 60
        (save_chat_history 0 [] "userA"
          [{ role := "assistant", content := "yo" },
           { role := "user", content := "hi" }]).db "userA"
        [{ role := "user", content := "hi" },
         { role := "assistant", content := "yo" }]).result ≠ "duplicate") ∧
    ((save_chat_history 60
        (save_chat_history 0 [] "userA"
          [{ role := "assistant", content := "yo" },
           { role := "user", content := "hi" }]).db "userA"
        [{ role := "user", content := "hi" },
         { role := "assistant", content := "yo" }]).db.length = 2) := by
  refine ⟨by decide, by decide, by decide, by decide, by decide, by decide,
    by decide⟩

/-- C3 (amended): for every user and every pair of `save_chat_history` calls
for that user within 5 minutes of each other, where each message list has at
least 2 entries, the last user and last assistant messages of the second call
match those of the first in their first 100 characters, *and the same one of
the two roles occurs last in both transcripts*: the second call returns the
`"duplicate"` sentinel and leaves the collection unchanged (no second
document is inserted). -/
theorem C3_duplicate_save_amended
    (t1 t2 : Int) (db0 : List HDoc) (clerk : String) (m1 m2 : List Msg)
    (mo1 mo2 : String) (ti1 ti2 er1 er2 : Option String)
    (u1 u2 a1 a2 : Msg)
    (h1 : 2 ≤ m1.length) (h2 : 2 ≤ m2.length)
    (hu1 : lastOfRole m1 "user" = some u1)
    (hu2 : lastOfRole m2 "user" = some u2)
    (ha1 : lastOfRole m1 "assistant" = some a1)
    (ha2 : lastOfRole m2 "assistant" = some a2)
    (hcu : u1.content.take 100 = u2.content.take 100)
    (hca : a1.content.take 100 = a2.content.take 100)
    (hord : (m1.reverse.find?
        (fun m => m.role == "user" || m.role == "assistant")).map Msg.role =
      (m2.reverse.find?
        (fun m => m.role == "user" || m.role == "assistant")).map Msg.role)
    (hfirst : (save_chat_history t1 db0 clerk m1 mo1 ti1 er1).result ≠
      "duplicate")
    (htime : t2 - 300 ≤ t1) :
    (save_chat_history t2 (save_chat_history t1 db0 clerk m1 mo1 ti1 er1).db
        clerk m2 mo2 ti2 er2).result = "duplicate" ∧
      (save_chat_history t2
          (save_chat_history t1 db0 clerk m1 mo1 ti1 er1).db
          clerk m2 mo2 ti2 er2).db =
        (save_chat_history t1 db0 clerk m1 mo1 ti1 er1).db := by
  obtain ⟨hfeq, hfsome⟩ := fingerprint_str_of_matching m1 m2 u1 u2 a1 a2
    h1 h2 hu1 hu2 ha1 ha2 hcu hca hord
  obtain ⟨fp, hfp1⟩ := Option.isSome_iff_exists.mp hfsome
  have hfp2 : fingerprint_str m2 = some fp := by rw [← hfeq]; exact hfp1
  simp only [save_chat_history, hfp1, hfp2] at hfirst ⊢
  by_cases hcnt : 0 < db0.countP
      (fun d => d.clerk_id = clerk ∧ d.fingerprint = some fp ∧
        t1 - 300 ≤ d.created_at)
  · rw [if_pos hcnt] at hfirst
    exact absurd rfl hfirst
  · rw [if_neg hcnt] at hfirst ⊢
    have hdoc : (0:Nat) < List.countP
        (fun d => decide (d.clerk_id = clerk ∧ d.fingerprint = some fp ∧
          t2 - 300 ≤ d.created_at))
        (db0 ++ [insertedDoc t1 db0 clerk m1 mo1 ti1 er1 (some fp)]) := by
      rw [List.countP_pos_iff]
      refine ⟨insertedDoc t1 db0 clerk m1 mo1 ti1 er1 (some fp),
        List.mem_append_right _ (List.mem_singleton_self _), ?_⟩
      simp [insertedDoc, htime]
    rw [if_pos hdoc]
    exact ⟨rfl, rfl⟩

set_option maxRecDepth 8192 in
/-- Witness for C3 (amended) at a concrete input: two saves of
user:"hi" / assistant:"yo" for the same user 60 seconds apart; the second
returns `"duplicate"` and leaves the collection unchanged. -/
theorem C3_duplicate_save_witness :
    (save_chat_history 60
        (save_chat_history 0 [] "userA"
          [{ role := "user", content := "hi" },
           { role := "assistant", content := "yo" }] "gpt-4o" none none).db
        "userA"
        [{ role := "user", content := "hi" },
         { role := "assistant", content := "yo" }] "gpt-4o" none none).result =
      "duplicate" ∧
    (save_chat_history 60
        (save_chat_history 0 [] "userA"
          [{ role := "user", content := "hi" },
           { role := "assistant", content := "yo" }] "gpt-4o" none none).db
        "userA"
        [{ role := "user", content := "hi" },
         { role := "assistant", content := "yo" }] "gpt-4o" none none).db =
      (save_chat_history 0 [] "userA"
        [{ role := "user", content := "hi" },
         { role := "assistant", content := "yo" }] "gpt-4o" none none).db :=
  C3_duplicate_save_amended 0 60 [] "userA"
    [{ role := "user", content := "hi" },
     { role := "assistant", content := "yo" }]
    [{ role := "user", content := "hi" },
     { role := "assistant", content := "yo" }]
    "gpt-4o" "gpt-4o" none none none none
    { role := "user", content := "hi" } { role := "user", content := "hi" }
    { role := "assistant", content := "yo" }
    { role := "assistant", content := "yo" }
    (by decide) (by decide) (by decide) (by decide) (by decide) (by decide)
    rfl rfl rfl (by decide) (by decide)

/-!
## 4.11 Sentiment-analysis service — `split_text_into_chunks`
Source: src/api/service/sentiment_service.py lines 33-66 and
src/api/utils/constants.py line 15 (MAX_CHUNK_LENGTH = 4000).

Python strings are modelled as character lists.  `re.split(r'\n\s*\n', text)`
is modelled by a left-to-right scan: at each newline, the regex matches the
newline followed greedily by whitespace whose last character is again a
newline; matches are non-overlapping and the text between matches forms the
paragraphs.
-/

/-- Index of the last newline within the leading whitespace run: the greedy
backtracking of `\s*\n` selects the furthest newline inside the run. -/
def lastNewlineIdx (run : List Char) : Option Nat :=
  (run.reverse.findIdx? (· == '\n')).map (fun i => run.length - 1 - i)

/-- The scan of `re.split(r'\n\s*\n', text)`: `acc` holds the current
paragraph's characters in reverse. -/
def blankSplitAux (acc : List Char) : List Char → List (List Char)
  | [] => [acc.reverse]
  | c :: rest =>
    if c = '\n' then
      match lastNewlineIdx (rest.takeWhile isPyWs) with
      | some k => acc.reverse :: blankSplitAux [] (rest.drop (k + 1))
      | none => blankSplitAux (c :: acc) rest
    else blankSplitAux (c :: acc) rest
termination_by l => l.length
decreasing_by
  · simp only [List.length_cons, List.length_drop]
    omega
  · simp
  · simp

/-- `re.split(r'\n\s*\n', text)` — paragraph split on blank-line boundaries. -/
def blankSplit (text : List Char) : List (List Char) :=
  blankSplitAux [] text

/-- The paragraph-packing loop of sentiment_service.py lines 52-64.  The
length test `len(current_chunk) + len(paragraph) > max_length` does not count
the two-character `"\n\n"` joiner that the else-branch inserts. -/
def packLoop (maxLen : Nat) (chunks : List (List Char)) (current : List Char) :
    List (List Char) → List (List Char)
  | [] => if current.isEmpty then chunks else chunks ++ [current]
  | p :: ps =>
    if maxLen < current.length + p.length ∧ ¬current.isEmpty then
      packLoop maxLen (chunks ++ [current]) p ps
    else
      packLoop maxLen chunks
        (if current.isEmpty then p else current ++ '\n' :: '\n' :: p) ps

/-- `split_text_into_chunks(text, max_length)` — sentiment_service.py
lines 33-66. -/
def split_text_into_chunks (text : List Char) (maxLen : Nat) :
    List (List Char) :=
  if text.length ≤ maxLen then [text]
  else packLoop maxLen [] [] (blankSplit text)

/-- Amended claim C9's greedy packer, written from the amended words: pack
paragraphs in order, joining with the two-character `"\n\n"` joiner; start a
new chunk when the current chunk is non-empty and the sum of its length and
the next paragraph's length (exclusive of the joiner) exceeds the limit. -/
def greedyPackSpec (maxLen : Nat) (cur : List Char) :
    List (List Char) → List (List Char)
  | [] => if cur.isEmpty then [] else [cur]
  | p :: ps =>
    if ¬cur.isEmpty ∧ maxLen < cur.length + p.length then
      cur :: greedyPackSpec maxLen p ps
    else
      greedyPackSpec maxLen (if cur.isEmpty then p else cur ++ '\n' :: '\n' :: p) ps

lemma packLoop_eq_greedy (maxLen : Nat) (ps : List (List Char))
    (chunks : List (List Char)) (cur : List Char) :
    packLoop maxLen chunks cur ps = chunks ++ greedyPackSpec maxLen cur ps := by
  induction ps generalizing chunks cur with
  | nil =>
    by_cases hc : cur.isEmpty <;> simp [packLoop, greedyPackSpec, hc]
  | cons p rest ih =>
    by_cases hcond : maxLen < cur.length + p.length ∧ ¬cur.isEmpty
    · have hcond2 : ¬cur.isEmpty ∧ maxLen < cur.length + p.length :=
        ⟨hcond.2, hcond.1⟩
      simp [packLoop, greedyPackSpec, hcond, hcond2, ih]
    · have hcond2 : ¬(¬cur.isEmpty ∧ maxLen < cur.length + p.length) := by
        intro hk; exact hcond ⟨hk.2, hk.1⟩
      simp only [packLoop, greedyPackSpec]
      rw [if_neg hcond, if_neg hcond2, ih]

/-- C9 (amended): `split_text_into_chunks` at the 4000-character limit
returns `[text]` when the text is at most 4000 characters; for longer text it
splits on blank-line paragraph boundaries and greedily packs paragraphs in
order with a two-character `"\n\n"` joiner, starting a new chunk when the
current chunk is non-empty and the sum of its length and the next paragraph's
length — exclusive of the joiner — exceeds 4000.  A single paragraph longer
than the limit stays one oversized chunk, and a packed chunk may exceed the
limit by the joiner characters. -/
theorem C9_split_text_into_chunks_amended (text : List Char) :
    split_text_into_chunks text 4000 =
      if text.length ≤ 4000 then [text]
      else greedyPackSpec 4000 [] (blankSplit text) := by
  unfold split_text_into_chunks
  by_cases h : text.length ≤ 4000
  · simp [h]
  · simp [h, packLoop_eq_greedy]

/-- Paragraph for the C9 counterexample: 2000 letters `a`. -/
def pC9 : List Char := List.replicate 2000 'a'

/-- Text for the C9 counterexample: two 2000-character paragraphs separated
by a blank line — 4002 characters in total. -/
def tC9 : List Char := pC9 ++ '\n' :: '\n' :: pC9

lemma blankSplitAux_consume (n : Nat) (acc l : List Char) :
    blankSplitAux acc (List.replicate n 'a' ++ l) =
      blankSplitAux (List.replicate n 'a' ++ acc) l := by
  induction n generalizing acc with
  | zero => simp
  | succ n ih =>
    rw [List.replicate_succ, List.cons_append]
    rw [show blankSplitAux acc ('a' :: (List.replicate n 'a' ++ l)) =
      blankSplitAux ('a' :: acc) (List.replicate n 'a' ++ l) by
        simp [blankSplitAux]]
    rw [ih]
    congr 1
    rw [List.append_cons, ← List.replicate_succ', List.replicate_succ,
      List.cons_append]

lemma takeWhile_replicate_a (n : Nat) :
    (List.replicate n 'a').takeWhile isPyWs = [] := by
  cases n with
  | zero => rfl
  | succ n =>
    rw [List.replicate_succ]
    simp [List.takeWhile_cons, isPyWs]

lemma blankSplit_c9 : blankSplit tC9 = [pC9, pC9] := by
  unfold blankSplit tC9 pC9
  rw [blankSplitAux_consume]
  rw [List.append_nil]
  rw [show blankSplitAux (List.replicate 2000 'a')
        ('
' :: '
' :: List.replicate 2000 'a') =
      (List.replicate 2000 'a').reverse ::
        blankSplitAux [] (('
' :: List.replicate 2000 'a').drop 1) by
    rw [blankSplitAux]
    have ht : ('
' :: List.replicate 2000 'a').takeWhile isPyWs = ['
'] := by
      rw [List.takeWhile_cons]
      simp [isPyWs, takeWhile_replicate_a]
    rw [if_pos rfl, ht]
    rfl]
  rw [List.drop_one, List.tail_cons]
  rw [List.reverse_replicate]
  rw [show blankSplitAux [] (List.replicate 2000 'a') =
      blankSplitAux (List.replicate 2000 'a') [] by
    have h := blankSplitAux_consume 2000 [] []
    rw [List.append_nil] at h
    exact h]
  rw [show blankSplitAux (List.replicate 2000 'a') [] =
      [(List.replicate 2000 'a').reverse] by rw [blankSplitAux]]
  rw [List.reverse_replicate]

lemma tC9_length : tC9.length = 4002 := by
  unfold tC9 pC9
  simp only [List.length_append, List.length_cons, List.length_replicate]

lemma pack_c9 : split_text_into_chunks tC9 4000 = [tC9] := by
  have hlen : pC9.length = 2000 := by
    unfold pC9; simp only [List.length_replicate]
  have hne : pC9.isEmpty = false := by
    unfold pC9; rfl
  unfold split_text_into_chunks
  rw [if_neg (by rw [tC9_length]; omega)]
  rw [blankSplit_c9]
  have step1 : packLoop 4000 [] [] [pC9, pC9] = packLoop 4000 [] pC9 [pC9] := by
    rw [packLoop]
    rw [if_neg (by simp)]
    rw [if_pos List.isEmpty_nil]
  have step2 : packLoop 4000 [] pC9 [pC9] =
      packLoop 4000 [] (pC9 ++ '\n' :: '\n' :: pC9) [] := by
    conv_lhs => rw [packLoop]
    have hc1 : ¬(4000 < pC9.length + pC9.length ∧ ¬pC9.isEmpty = true) := by
      intro hk
      have h1 := hk.1
      rw [hlen] at h1
      omega
    rw [if_neg hc1]
    have hc2 : ¬ pC9.isEmpty = true := by rw [hne]; simp
    rw [if_neg hc2]
  have step3 : packLoop 4000 [] (pC9 ++ '\n' :: '\n' :: pC9) [] =
      [pC9 ++ '\n' :: '\n' :: pC9] := by
    rw [packLoop]
    have hc3 : ¬((pC9 ++ '\n' :: '\n' :: pC9).isEmpty = true) := by
      simp [List.isEmpty_iff]
    rw [if_neg hc3]
    rw [List.nil_append]
  rw [step1, step2, step3]
  rfl

/-- C9 counterexample: the 4002-character text made of two 2000-character
paragraphs separated by a blank line is longer than the 4000-character limit,
splits into exactly those two paragraphs (each within the limit), and is
packed into a *single* 4002-character chunk: the length test ignores the
two-character `"\n\n"` joiner, so a multi-paragraph chunk can exceed the
limit, refuting the claim that only a single-oversized-paragraph chunk may
exceed it. -/
theorem C9_counterexample :
    tC9.length = 4002 ∧ 4000 < tC9.length ∧
      blankSplit tC9 = [pC9, pC9] ∧ pC9.length = 2000 ∧
      pC9.length ≤ 4000 ∧
      split_text_into_chunks tC9 4000 = [tC9] := by
  have hlen : pC9.length = 2000 := by
    unfold pC9; simp only [List.length_replicate]
  refine ⟨tC9_length, by rw [tC9_length]; omega, blankSplit_c9, hlen,
    by rw [hlen]; omega, pack_c9⟩

/-!
## 4.7 User-identity service — `create_or_update_user`
Source: src/api/service/user_service.py lines 31-91.

A `users` document and the incoming Clerk payload are modelled with the
fields the function touches; `metadata.preferences` is elided (no claim reads
it).  The unique index on `email` (ensure_users_index, line 18) is modelled
by raising the 409 duplicate-key error when a write would give two distinct
documents the same email.
-/

/-- Incoming `user_data` payload: `none` models an absent key. -/
structure UserData where
  clerk_id : Option String := none
  email : Option String := none
  username : Option String := none
  first_name : Option String := none
  last_name : Option String := none
  image_url : Option String := none
  subscription_tier : Option String := none
deriving Repr, DecidableEq

/-- One persisted `users` document. -/
structure UserDoc where
  clerk_id : String
  email : String
  username : Option String
  first_name : Option String
  last_name : Option String
  image_url : Option String
  created_at : Int
  updated_at : Int
  last_sign_in : Int
  subscription_tier : String
  is_active : Bool
deriving Repr, DecidableEq

/-- An HTTPException raised by the user service. -/
structure UserErr where
  status : Nat
  detail : String
deriving Repr, DecidableEq

/-- `create_or_update_user(user_data)` — user_service.py lines 31-91.
Returns the constructed user model and the updated collection, or the raised
HTTPException (400 missing clerk_id, 409 duplicate email, per the source's
except clauses). -/
def create_or_update_user (now : Int) (db : List UserDoc) (data : UserData) :
    Except UserErr (UserDoc × List UserDoc) :=
  match data.clerk_id with
  | none => .error { status := 400, detail := "Missing clerk_id in user data" }
  | some cid =>
    if cid = "" then      -- `if not clerk_id:` is also true for ""
      .error { status := 400, detail := "Missing clerk_id in user data" }
    else
      let existing := db.find? (fun d => d.clerk_id = cid)
      let user : UserDoc :=
        { clerk_id := cid
          email := data.email.getD ""       -- user_data.get("email", "")
          username := data.username
          first_name := data.first_name
          last_name := data.last_name
          image_url := data.image_url
          created_at := now
          updated_at := now
          last_sign_in := now
          subscription_tier := data.subscription_tier.getD "free"
          is_active := true }
      match existing with
      | some _ =>
        if db.any (fun d => d.clerk_id ≠ cid ∧ d.email = user.email) then
          .error { status := 409,
                   detail := "Email already exists with a different account" }
        else
          .ok (user, db.map (fun d =>
            if d.clerk_id = cid then
              { d with email := user.email, username := user.username,
                       first_name := user.first_name,
                       last_name := user.last_name,
                       image_url := user.image_url, updated_at := now,
                       last_sign_in := now }
            else d))
      | none =>
        if db.any (fun d => d.email = user.email) then
          .error { status := 409,
                   detail := "Email already exists with a different account" }
        else
          .ok (user, db ++ [user])

/-- C10: every `create_or_update_user` call whose payload carries a
`clerk_id` but no `email` key and that completes without error writes the
user document with `email` set to the empty string; in particular, on the
update path the existing document's stored email is overwritten with `""`
(every stored document for that clerk_id ends up with an empty email). -/
theorem C10_create_or_update_user_blank_email
    (now : Int) (db : List UserDoc) (data : UserData) (cid : String)
    (u : UserDoc) (db2 : List UserDoc)
    (hcid : data.clerk_id = some cid) (hne : cid ≠ "")
    (hemail : data.email = none)
    (hok : create_or_update_user now db data = .ok (u, db2)) :
    u.email = "" ∧ ∀ d ∈ db2, d.clerk_id = cid → d.email = "" := by
  simp only [create_or_update_user, hcid, hemail, Option.getD_none] at hok
  rw [if_neg hne] at hok
  cases hex : db.find? (fun d => d.clerk_id = cid) with
  | some w =>
    rw [hex] at hok
    by_cases hdup : db.any (fun d => d.clerk_id ≠ cid ∧ d.email = "")
    · simp only [hdup, if_true] at hok
      cases hok
    · simp only [hdup, if_false, Bool.false_eq_true] at hok
      injection hok with hok1
      injection hok1 with hu hdb2
      constructor
      · rw [← hu]
      · intro d hd hdc
        rw [← hdb2] at hd
        obtain ⟨d0, _, hd0⟩ := List.mem_map.mp hd
        by_cases hdc0 : d0.clerk_id = cid
        · rw [if_pos hdc0] at hd0
          rw [← hd0]
        · rw [if_neg hdc0] at hd0
          rw [← hd0] at hdc
          exact absurd hdc hdc0
  | none =>
    rw [hex] at hok
    by_cases hdup : db.any (fun d => d.email = "")
    · simp only [hdup, if_true] at hok
      cases hok
    · simp only [hdup, if_false, Bool.false_eq_true] at hok
      injection hok with hok1
      injection hok1 with hu hdb2
      constructor
      · rw [← hu]
      · intro d hd hdc
        rw [← hdb2] at hd
        rcases List.mem_append.mp hd with hmem | hmem
        · have hnone := List.find?_eq_none.mp hex d hmem
          simp at hnone
          exact absurd hdc hnone
        · rw [List.mem_singleton] at hmem
          rw [hmem]

/-- Witness for C10 at a concrete input: syncing `{clerk_id: "u1"}` (no email
key) against a collection holding user `u1` with stored email
`"old@example.com"` overwrites the stored email with the empty string. -/
theorem C10_create_or_update_user_witness :
    ({ clerk_id := some "u1" } : UserData).clerk_id = some "u1" ∧
    ({ clerk_id := some "u1" } : UserData).email = none ∧
    (create_or_update_user 5
        [{ clerk_id := "u1", email := "old@example.com", username := none,
           first_name := none, last_name := none, image_url := none,
           created_at := 0, updated_at := 0, last_sign_in := 0,
           subscription_tier := "free", is_active := true }]
        { clerk_id := some "u1" } =
      .ok ({ clerk_id := "u1", email := "", username := none,
             first_name := none, last_name := none, image_url := none,
             created_at := 5, updated_at := 5, last_sign_in := 5,
             subscription_tier := "free", is_active := true },
           [{ clerk_id := "u1", email := "", username := none,
              first_name := none, last_name := none, image_url := none,
              created_at := 0, updated_at := 5, last_sign_in := 5,
              subscription_tier := "free", is_active := true }])) ∧
    ({ clerk_id := "u1", email := "", username := none,
       first_name := none, last_name := none, image_url := none,
       created_at := 5, updated_at := 5, last_sign_in := 5,
       subscription_tier := "free", is_active := true } : UserDoc).email =
      "" ∧
    (∀ d ∈ [({ clerk_id := "u1", email := "", username := none,
               first_name := none, last_name := none, image_url := none,
               created_at := 0, updated_at := 5, last_sign_in := 5,
               subscription_tier := "free",
               is_active := true } : UserDoc)],
      d.clerk_id = "u1" → d.email = "") :=
  ⟨rfl, rfl, rfl,
    (C10_create_or_update_user_blank_email 5
      [{ clerk_id := "u1", email := "old@example.com", username := none,
         first_name := none, last_name := none, image_url := none,
         created_at := 0, updated_at := 0, last_sign_in := 0,
         subscription_tier := "free", is_active := true }]
      { clerk_id := some "u1" } "u1"
      { clerk_id := "u1", email := "", username := none,
        first_name := none, last_name := none, image_url := none,
        created_at := 5, updated_at := 5, last_sign_in := 5,
        subscription_tier := "free", is_active := true }
      [{ clerk_id := "u1", email := "", username := none,
         first_name := none, last_name := none, image_url := none,
         created_at := 0, updated_at := 5, last_sign_in := 5,
         subscription_tier := "free", is_active := true }]
      rfl (by decide) rfl rfl).1,
    (C10_create_or_update_user_blank_email 5
      [{ clerk_id := "u1", email := "old@example.com", username := none,
         first_name := none, last_name := none, image_url := none,
         created_at := 0, updated_at := 0, last_sign_in := 0,
         subscription_tier := "free", is_active := true }]
      { clerk_id := some "u1" } "u1"
      { clerk_id := "u1", email := "", username := none,
        first_name := none, last_name := none, image_url := none,
        created_at := 5, updated_at := 5, last_sign_in := 5,
        subscription_tier := "free", is_active := true }
      [{ clerk_id := "u1", email := "", username := none,
         first_name := none, last_name := none, image_url := none,
         created_at := 0, updated_at := 5, last_sign_in := 5,
         subscription_tier := "free", is_active := true }]
      rfl (by decide) rfl rfl).2⟩

/-!
## 4.8 / 4.12 Chat-history retrieval, deletion and the HTTP handlers
Sources: src/api/service/chat_history_service.py lines 161-197 (get),
200-280 (listing), 346-364 (delete), 367-373 (id validation) and
src/api/index.py lines 278-350 (list route), 352-395 (delete route),
398-471 (detail route).
-/

/-- Hexadecimal digit test for the ObjectId format. -/
def isHexChar (c : Char) : Bool :=
  c.isDigit || ('a' ≤ c && c ≤ 'f') || ('A' ≤ c && c ≤ 'F')

/-- `is_valid_object_id` — chat_history_service.py lines 367-373: the string
parses as a BSON ObjectId exactly when it is 24 hexadecimal characters. -/
def is_valid_object_id (s : String) : Bool :=
  s.length == 24 && s.toList.all isHexChar

/-- Dict form of one stored message, as serialized back to the client. -/
def msgToPy (m : Msg) : PyV :=
  .dict ((match m.id with
          | some i => [("id", .str i)]
          | none => []) ++
    [("role", .str m.role), ("content", .str m.content)])

/-- Dict form of a stored chat-history document as returned by
`get_chat_history` (ObjectId and datetimes rendered; `_id` replaced by
`id`). -/
def hdocToPy (d : HDoc) : PyV :=
  .dict ([("id", .str d.docId), ("clerk_id", .str d.clerk_id),
          ("title", match d.title with
                    | some t => .str t
                    | none => .null),
          ("messages", .list (d.messages.map msgToPy)),
          ("model", .str d.model),
          ("created_at", .int d.created_at),
          ("updated_at", .int d.updated_at)])

/-- `get_chat_history(chat_id, clerk_id)` — chat_history_service.py
lines 161-197.  `ObjectId(chat_id)` raising on a malformed id is modelled by
the validity test; the surrounding `except` turns it into `None`.  When
`clerk_id` is supplied the query is scoped to that owner. -/
def get_chat_history (db : List HDoc) (chat_id : String)
    (clerk_id : Option String := none) : Option PyV :=
  if is_valid_object_id chat_id then
    (db.find? (fun d => d.docId == chat_id &&
        (match clerk_id with
         | some c => d.clerk_id == c
         | none => true))).map hdocToPy
  else none

/-- `delete_chat_history(chat_id)` — chat_history_service.py lines 346-364:
delete by id (the first matching document), returning whether a document was
removed; a malformed id raises inside the `try` and yields `false`. -/
def delete_chat_history (db : List HDoc) (chat_id : String) :
    Bool × List HDoc :=
  if is_valid_object_id chat_id then
    ((db.find? (fun d => d.docId == chat_id)).isSome,
      db.eraseP (fun d => d.docId == chat_id))
  else (false, db)

/-- Python attribute access `chat.clerk_id` on a value of the modelled types:
none of them (dict, str, ...) is an object with a `clerk_id` attribute, so it
raises AttributeError — notably on the dict returned by `get_chat_history`,
which is what index.py line 375 does. -/
def pyAttrClerkId : PyV → Except String PyV :=
  fun _ => .error "AttributeError: dict object has no attribute clerk_id"

/-- `d.get(k)` on a value known to be a dict (`None` for a missing key). -/
def pyvGet (v : PyV) (k : String) : Option PyV :=
  match v with
  | .dict kvs => dictGet kvs k
  | _ => none

/-- The request context seen by these handlers: the `X-Direct-Auth-User-ID`
header, `request.state.user` (carrying a clerk_id) and the bearer token from
the `Authorization` header. -/
structure ReqCtx where
  directAuthUserId : Option String := none
  stateUser : Option String := none
  bearerToken : Option String := none
deriving Repr

/-- The three-way identity resolution used identically by the chat-history
list route (index.py lines 282-320) and the detail route (lines 402-434):
direct-auth header first, then `request.state.user`, then an inline JWT
payload decode taking the first *truthy* claim among sub, azp, user_id, id.
The decoded claim value is attached as-is (any JSON value). -/
def resolveClerkId
    (decodePayload : String → Option (List (String × PyV)))
    (req : ReqCtx) : Option PyV :=
  match req.directAuthUserId with
  | some uid => some (.str uid)
  | none =>
    match req.stateUser with
    | some u => some (.str u)
    | none =>
      match req.bearerToken with
      | none => none
      | some token =>
        match pySplitDot token with
        | [_, payload, _] =>
          match decodePayload (padBase64 payload) with
          | some decoded =>
            (["sub", "azp", "user_id", "id"].filterMap
              (fun f => dictGet decoded f)).find? pyTruthy
          | none => none
        | _ => none

/-- An HTTP response: status code and JSON body. -/
structure HttpResponse where
  status : Nat
  body : PyV
deriving Repr

/-- `GET /api/chat-history/chat_id` (`get_chat_by_id`) — index.py
lines 398-471: 401 without identity, 400 on a malformed id, 404 when absent,
403 when the `clerk_id` stored in the record differs from the caller, else
the full record. -/
def get_chat_by_id
    (decodePayload : String → Option (List (String × PyV)))
    (req : ReqCtx) (chat_id : String) (db : List HDoc) : HttpResponse :=
  match resolveClerkId decodePayload req with
  | none => { status := 401,
              body := .dict [("error", .str "Authentication required")] }
  | some clerk =>
    if !(is_valid_object_id chat_id) then
      { status := 400,
        body := .dict [("error", .str "Invalid chat ID format")] }
    else
      match get_chat_history db chat_id with
      | none => { status := 404,
                  body := .dict [("error", .str "Chat not found")] }
      | some chat =>
        if pyvGet chat "clerk_id" != some clerk then
          { status := 403, body := .dict [("error", .str "Access denied")] }
        else
          { status := 200, body := chat }

/-- `DELETE /api/chat-history/chat_id` (`delete_chat`) — index.py
lines 352-395.  After the state checks, `clerk_id = request_obj.state.user
.clerk_id` raises outside the `try` when the user slot is `None` (an
unhandled error, surfaced as a 500 by the framework).  Inside the `try`,
line 375 reads `chat.clerk_id` as an *attribute* of the dict returned by
`get_chat_history`, which raises AttributeError; the `except` at line 391
turns it into a 500, so the ownership test, the delete and the success
branch below it are unreachable.  They are still modelled, after the
attribute access, exactly as written. -/
def delete_chat (req : ReqCtx) (chat_id : String) (db : List HDoc) :
    HttpResponse × List HDoc :=
  match req.stateUser with
  | none =>
    ({ status := 500,
       body := .dict [("error",
         .str "AttributeError: NoneType object has no attribute clerk_id")] }, db)
  | some clerk =>
    match get_chat_history db chat_id with
    | none =>
      ({ status := 404, body := .dict [("error", .str "Chat not found")] },
        db)
    | some chat =>
      match pyAttrClerkId chat with
      | .error e =>
        ({ status := 500, body := .dict [("error", .str ("Error: " ++ e))] },
          db)
      | .ok owner =>
        if owner != .str clerk then
          ({ status := 403, body := .dict [("error", .str "Access denied")] },
            db)
        else
          let deleted := delete_chat_history db chat_id
          if deleted.1 then
            ({ status := 200, body := .dict [("success", .bool true)] },
              deleted.2)
          else
            ({ status := 500,
               body := .dict [("error", .str "Failed to delete chat")] },
              deleted.2)

/-- The stored chat used in the C1 evaluation: owned by `"userA"`. -/
def c1Doc : HDoc :=
  { docId := "aaaaaaaaaaaaaaaaaaaaaaaa", clerk_id := "userA",
    title := some "hello", messages := [{ role := "user", content := "hi" }],
    model := "gpt-4o", created_at := 0, updated_at := 0,
    fingerprint := none, error := none }

/-- C1 evaluation at the failing input: with a persisted chat owned by user A,
the authenticated owner's DELETE returns a 500 (never the claimed
`success: true`) and removes nothing — line 375 reads `.clerk_id` as an
attribute of the dict returned by the service, and the resulting
AttributeError is swallowed into a 500.  A non-owner's DELETE also returns
500 (not the claimed 403/404) and removes nothing.  The GET detail handler
behaves as claimed: owner 200 with the record, non-owner 403. -/
theorem C1_ownership_evaluation :
    (delete_chat { stateUser := some "userA" } "aaaaaaaaaaaaaaaaaaaaaaaa"
        [c1Doc]).1.status = 500 ∧
    (delete_chat { stateUser := some "userA" } "aaaaaaaaaaaaaaaaaaaaaaaa"
        [c1Doc]).2 = [c1Doc] ∧
    (delete_chat { stateUser := some "userB" } "aaaaaaaaaaaaaaaaaaaaaaaa"
        [c1Doc]).1.status = 500 ∧
    (delete_chat { stateUser := some "userB" } "aaaaaaaaaaaaaaaaaaaaaaaa"
        [c1Doc]).2 = [c1Doc] ∧
    (get_chat_by_id (fun _ => none) { stateUser := some "userA" }
        "aaaaaaaaaaaaaaaaaaaaaaaa" [c1Doc]).status = 200 ∧
    (get_chat_by_id (fun _ => none) { stateUser := some "userA" }
        "aaaaaaaaaaaaaaaaaaaaaaaa" [c1Doc]).body = hdocToPy c1Doc ∧
    (get_chat_by_id (fun _ => none) { stateUser := some "userB" }
        "aaaaaaaaaaaaaaaaaaaaaaaa" [c1Doc]).status = 403 := by
  refine ⟨rfl, rfl, rfl, rfl, rfl, rfl, rfl⟩

/-- One entry of the chat-history listing returned by the persistence
service's `get_user_chat_histories` (chat_history_service.py lines 217-264).
`title` is the stored title value (the `"Untitled Chat"` default applies only
to documents lacking the key, which the modelled save always writes). -/
structure ChatSummary where
  id : String
  title : Option String
  created_at : Int
  updated_at : Option Int
  last_message : Option String
  model : Option String
deriving Repr, DecidableEq

/-- Stable insertion of a document into a list sorted by `updated_at`
descending (models the MongoDB sort of line 213). -/
def insertByUpdatedDesc (d : HDoc) : List HDoc → List HDoc
  | [] => [d]
  | x :: xs =>
    if x.updated_at < d.updated_at then d :: x :: xs
    else x :: insertByUpdatedDesc d xs

/-- Sort by `updated_at` descending. -/
def sortByUpdatedDesc : List HDoc → List HDoc
  | [] => []
  | x :: xs => insertByUpdatedDesc x (sortByUpdatedDesc xs)

/-- `get_user_chat_histories(clerk_id)` — the persistence service,
chat_history_service.py lines 200-280: all documents of the user, sorted by
`updated_at` descending, reduced to summaries; the preview is the *last*
message's content truncated to 100 characters with an ellipsis. -/
def service_get_user_chat_histories (db : List HDoc) (clerk : String) :
    List ChatSummary :=
  (sortByUpdatedDesc (db.filter (fun d => d.clerk_id == clerk))).map
    (fun d =>
      { id := d.docId
        title := d.title
        created_at := d.created_at
        updated_at := some d.updated_at
        last_message := (d.messages.getLast?).map
          (fun m =>
            if 100 < m.content.length then m.content.take 100 ++ "..."
            else m.content)
        model := some d.model })

/-- Result of the list route: a 401 or the JSON list. -/
inductive ListRouteResult where
  | unauthorized
  | listing (items : List ChatSummary)
deriving Repr, DecidableEq

/-- Association-list lookup with PyV keys (the in-memory caches are Python
dicts keyed by the resolved clerk id). -/
def cacheGet {β : Type} (c : List (PyV × β)) (k : PyV) : Option β :=
  (c.find? (fun kv => kv.1 == k)).map (·.2)

/-- Association-list update with PyV keys. -/
def cacheSet {β : Type} (c : List (PyV × β)) (k : PyV) (v : β) :
    List (PyV × β) :=
  if (c.find? (fun kv => kv.1 == k)).isSome then
    c.map (fun kv => if kv.1 == k then (k, v) else kv)
  else c ++ [(k, v)]

/-- Models index.py line 339, `await get_user_chat_histories(clerk_id)`
inside the route handler: at module level the imported service function of
that name has been shadowed by the route handler itself (defined at
line 279), so this re-invokes the handler with the clerk id as
`request_obj`; that call's first operation, `request_obj.headers.get(...)`,
raises AttributeError on the string, which the handler's own `except`
(line 346) converts to an empty list. -/
def route_recursive_call_on_clerk_id (_clerkId : PyV) : List ChatSummary :=
  []

/-- `GET /api/chat-history` (the route handler, index.py lines 278-350):
identity resolution, the 30-second cache, and — on a cache miss — the
shadowed recursive call of line 339 whose `[]` result is cached and
returned. -/
def route_get_user_chat_histories
    (decodePayload : String → Option (List (String × PyV)))
    (now : Int) (req : ReqCtx)
    (cache : List (PyV × List ChatSummary)) (cacheTimes : List (PyV × Int))
    (db : List HDoc) :
    ListRouteResult × List (PyV × List ChatSummary) × List (PyV × Int) :=
  match resolveClerkId decodePayload req with
  | none => (.unauthorized, cache, cacheTimes)
  | some clerk =>
    let cachedHit :=
      match cacheGet cache clerk, cacheGet cacheTimes clerk with
      | some entry, some t => if now - t < 30 then some entry else none
      | _, _ => none
    match cachedHit with
    | some entry => (.listing entry, cache, cacheTimes)
    | none =>
      let chat_histories := route_recursive_call_on_clerk_id clerk
      let cache' := cacheSet cache clerk
        (if chat_histories.isEmpty then [] else chat_histories)
      let cacheTimes' := cacheSet cacheTimes clerk now
      (.listing ((cacheGet cache' clerk).getD []), cache', cacheTimes')

/-- The stored chat used in the C6 evaluation. -/
def c6Doc : HDoc :=
  { docId := "bbbbbbbbbbbbbbbbbbbbbbbb", clerk_id := "userA",
    title := some "hello", messages := [{ role := "user", content := "hi" }],
    model := "gpt-4o", created_at := 7, updated_at := 9,
    fingerprint := none, error := none }

/-- C6 evaluation at the failing input: authenticated user A has one stored
chat, and the persistence service's listing for A is the corresponding
non-empty summary list; yet a cache-miss GET returns the empty list (and
caches it) because line 339 calls the shadowed route handler instead of the
service.  The cache-hit path, by contrast, returns the cached entry as
claimed, and an unauthenticated request gets the 401. -/
theorem C6_chat_history_route_evaluation :
    service_get_user_chat_histories [c6Doc] "userA" =
      [{ id := "bbbbbbbbbbbbbbbbbbbbbbbb", title := some "hello",
         created_at := 7, updated_at := some 9, last_message := some "hi",
         model := some "gpt-4o" }] ∧
    (route_get_user_chat_histories (fun _ => none) 100
        { stateUser := some "userA" } [] [] [c6Doc]).1 = .listing [] ∧
    (route_get_user_chat_histories (fun _ => none) 100
        { stateUser := some "userA" } [] [] [c6Doc]).2.1 =
      [(.str "userA", [])] ∧
    (route_get_user_chat_histories (fun _ => none) 100
        { stateUser := some "userA" }
        [(.str "userA",
          [{ id := "bbbbbbbbbbbbbbbbbbbbbbbb", title := some "hello",
             created_at := 7, updated_at := some 9,
             last_message := some "hi", model := some "gpt-4o" }])]
        [(.str "userA", 80)] [c6Doc]).1 =
      .listing
        [{ id := "bbbbbbbbbbbbbbbbbbbbbbbb", title := some "hello",
           created_at := 7, updated_at := some 9, last_message := some "hi",
           model := some "gpt-4o" }] ∧
    (route_get_user_chat_histories (fun _ => none) 100 {} [] [] [c6Doc]).1 =
      .unauthorized := by
  refine ⟨rfl, rfl, rfl, rfl, rfl⟩

/-!
## 4.10 Chat-completion streaming service — duplicate-save guard and the
persistence trigger.  Source: src/api/service/chat_service.py lines 38-149
(ChatSaveManager) and lines 408-476 (the end-of-stream save block).

`hashlib.md5(s).hexdigest()` is modelled as the identity on the hashed
string (a collision-free abstraction: only equality of hashes is ever
consumed).
-/

/-- MD5 modelled as the identity on the hashed text. -/
def md5Hex (s : String) : String := s

/-- One `_active_chats` entry of the `ChatSaveManager` singleton. -/
structure ChatEntry where
  start_time : Int
  clerk_id : String
  saved : Bool
  last_activity : Int
  conv_hash : Option String
  request_id : Option String
deriving Repr, DecidableEq

/-- The `_active_chats` map: chat key to entry. -/
abbrev SaveMgr : Type := List (String × ChatEntry)

/-- Lookup in the `_active_chats` map. -/
def mgrGet (m : SaveMgr) (k : String) : Option ChatEntry :=
  (m.find? (fun kv => kv.1 == k)).map (·.2)

/-- Write-through update of the `_active_chats` map. -/
def mgrSet (m : SaveMgr) (k : String) (e : ChatEntry) : SaveMgr :=
  if (m.find? (fun kv => kv.1 == k)).isSome then
    m.map (fun kv => if kv.1 == k then (k, e) else kv)
  else m ++ [(k, e)]

/-- `ChatSaveManager.should_save(chat_key)` — chat_service.py lines 82-91:
false for an unknown key; otherwise refresh `last_activity` and report
whether the entry is not yet marked saved. -/
def should_save (now : Int) (m : SaveMgr) (key : String) : Bool × SaveMgr :=
  match mgrGet m key with
  | none => (false, m)
  | some e => (!e.saved, mgrSet m key { e with last_activity := now })

/-- `ChatSaveManager.mark_as_saved(chat_key)` — chat_service.py
lines 75-80. -/
def mark_as_saved (now : Int) (m : SaveMgr) (key : String) : SaveMgr :=
  match mgrGet m key with
  | none => m
  | some e => mgrSet m key { e with saved := true, last_activity := now }

/-- `ChatSaveManager.is_duplicate_conversation(clerk_id, messages)` —
chat_service.py lines 117-146: hash the `role:first-100-chars` signature of
every message with non-empty string content and compare against entries of
the same user already marked saved. -/
def is_duplicate_conversation (clerk : String) (messages : List Msg)
    (m : SaveMgr) : Bool :=
  let conversation_sig := messages.filterMap
    (fun msg =>
      if msg.content != "" then some (msg.role ++ ":" ++ msg.content.take 100)
      else none)
  if conversation_sig.isEmpty then false
  else
    let conv_hash := md5Hex (String.intercalate ":" conversation_sig)
    m.any (fun kv =>
      kv.2.clerk_id == clerk && kv.2.saved && kv.2.conv_hash == some conv_hash)

/-- `_extract_title_from_messages` — chat_service.py lines 555-563: first 30
characters (not stripped) of the first user message with non-blank content,
with `"..."` when longer, else a timestamp fallback. -/
def extract_title_from_messages (now : Int) (messages : List Msg) : String :=
  match messages.find?
      (fun m => m.role == "user" && !(pyStripEmpty m.content)) with
  | some m => m.content.take 30 ++ (if 30 < m.content.length then "..." else "")
  | none => "Chat " ++ toString now

/-- `_filter_initial_messages` — chat_service.py lines 567-576: drop every
message whose `id` is the reserved value `"initial"`. -/
def filter_initial_messages (messages : List Msg) : List Msg :=
  messages.filter (fun m => m.id != some "initial")

/-- Python `saved_chat.get("id")` where `saved_chat` is the *string* returned
by `save_chat_history`: `str` has no `get` attribute, so this raises
AttributeError. -/
def pyStrGetMethod (_s : String) (_k : String) : Except String (Option PyV) :=
  .error "AttributeError: str object has no attribute get"

/-- The end-of-stream persistence block of `stream_text` for a turn that
completed with no runtime error (`stream_completed` true, `error_occurred`
false, `save_chat` true) and a registered chat key — chat_service.py
lines 410-476.  Returns the updated guard state and collection.  Line 441
stores the conversation hash on the guard entry; line 445 persists via
`save_chat_history`; line 452 then evaluates
`saved_chat and saved_chat.get("id")` — `saved_chat` is the string the
service returned, so the `.get` raises AttributeError, the `except` of
line 464 swallows it, and `mark_as_saved` (line 453) never runs. -/
def stream_text_save_completion (now : Int) (clerk_id : String)
    (chat_key : String) (final_messages : List Msg)
    (mgr : SaveMgr) (db : List HDoc) : SaveMgr × List HDoc :=
  let checked := should_save now mgr chat_key
  if checked.1 then
    let mgr1 := checked.2
    let title := extract_title_from_messages now final_messages
    let filtered := filter_initial_messages final_messages
    let conv_sig := filtered.map
      (fun msg => msg.role ++ ":" ++ msg.content.take 100)
    let mgr2 :=
      if !filtered.isEmpty && !conv_sig.isEmpty then
        match mgrGet mgr1 chat_key with
        | some e => mgrSet mgr1 chat_key
            { e with conv_hash := some (md5Hex (String.intercalate ":" conv_sig)) }
        | none => mgr1
      else mgr1
    if !filtered.isEmpty && !(is_duplicate_conversation clerk_id filtered mgr2) then
      let saved := save_chat_history now db clerk_id filtered "gpt-4o"
        (some title) none
      if saved.result == "" then
        (mgr2, saved.db)      -- falsy result: condition short-circuits
      else
        match pyStrGetMethod saved.result "id" with
        | .error _ => (mgr2, saved.db)   -- AttributeError → except, no mark
        | .ok v =>                        -- unreachable for a str result
          match v with
          | some pv =>
            if pyTruthy pv then (mark_as_saved now mgr2 chat_key, saved.db)
            else (mgr2, saved.db)
          | none => (mgr2, saved.db)
    else (mgr2, db)
  else (checked.2, db)

/-- The guard state used in the C2 evaluation: one registered, not yet
saved chat key for user A. -/
def c2Mgr : SaveMgr :=
  [("key1", { start_time := 0, clerk_id := "userA", saved := false,
              last_activity := 0, conv_hash := none,
              request_id := some "r1" })]

/-- C2 evaluation at the failing input: a completed error-free turn for user
A under registered key `"key1"` (guard not yet saved), with a transcript
that is non-empty after filtering and not a recognized duplicate.  The
persistence step does insert the filtered transcript — but
`should_save("key1")` still returns true afterwards: the success check
`saved_chat.get("id")` is an attribute access on the string returned by
`save_chat_history`, the AttributeError is swallowed, and the key is never
marked saved, contradicting the claim that `should_save` is false after the
persist. -/
theorem C2_stream_save_marks_nothing :
    ((stream_text_save_completion 10 "userA" "key1"
        [{ role := "user", content := "hi" },
         { role := "assistant", content := "yo" }] c2Mgr []).2).length = 1 ∧
    ((stream_text_save_completion 10 "userA" "key1"
        [{ role := "user", content := "hi" },
         { role := "assistant", content := "yo" }] c2Mgr []).2).all
      (fun d => d.clerk_id == "userA") = true ∧
    (should_save 11
        (stream_text_save_completion 10 "userA" "key1"
          [{ role := "user", content := "hi" },
           { role := "assistant", content := "yo" }] c2Mgr []).1
        "key1").1 = true := by
  refine ⟨by decide, by decide, by decide⟩

/-!
## 4.10 Chat-completion streaming service — the `protocol='data'` frame loop.
Source: src/api/service/chat_service.py lines 301-406.

The upstream stream is a list of chunks (§6 wire contract); tool execution
(`available_tools[name](**json.loads(arguments))` plus `json.dumps` of the
result) is a library/tool boundary modelled as an `execTool` parameter whose
`.error` case carries the message of any raised exception (unknown tool,
argument-parse failure, tool failure), which the source converts into an
`a:`-frame bearing an `error` field.
-/

/-- Cumulative token usage reported by the terminal chunk. -/
structure StreamUsage where
  prompt_tokens : Nat
  completion_tokens : Nat
deriving Repr, DecidableEq

/-- One `delta.tool_calls` fragment. -/
structure DeltaToolCall where
  id : Option String
  name : Option String
  arguments : Option String
deriving Repr, DecidableEq

/-- One streamed `choice`. -/
structure StreamChoice where
  finish_reason : Option String
  content : Option String
  tool_calls : List DeltaToolCall
deriving Repr, DecidableEq

/-- One streamed chunk. -/
structure StreamChunk where
  choices : List StreamChoice
  usage : Option StreamUsage
deriving Repr, DecidableEq

/-- One accumulated draft tool call (chat_service.py lines 367-375). -/
structure DraftToolCall where
  id : String
  name : String
  arguments : String
deriving Repr, DecidableEq

/-- One emitted wire frame, by its single-character type tag:
`0:` content, `9:` tool-call announcement, `a:` tool outcome (result or
error variant), `d:` terminal finish/usage frame. -/
inductive Frame where
  | text (s : String)
  | toolCall (id name args : String)
  | toolResult (id name args result : String)
  | toolResultErr (id name args error : String)
  | finish (reason : String) (promptTokens completionTokens : Nat)
deriving Repr, DecidableEq

/-- Frames that start with the `9:` tag. -/
def isToolCallFrame : Frame → Bool
  | .toolCall _ _ _ => true
  | _ => false

/-- Frames that start with the `d:` tag. -/
def isFinishFrame : Frame → Bool
  | .finish _ _ _ => true
  | _ => false

/-- Mutable state of the data-protocol loop (the collected text and the
usage-info bookkeeping are elided: neither influences which frames are
emitted — the terminal frame reads the usage of its own chunk). -/
structure StreamState where
  draft_tool_calls : List DraftToolCall
  stream_completed : Bool
deriving Repr, DecidableEq

/-- Applying one `delta.tool_calls` fragment (chat_service.py
lines 362-375): a fragment with an id starts a new entry; one without an id
appends its (non-empty) arguments to the most recently started entry —
`draft_tool_calls[-1]` on an empty list raises IndexError. -/
def applyToolDelta (draft : List DraftToolCall) (tc : DeltaToolCall) :
    Except String (List DraftToolCall) :=
  match tc.id with
  | some i => .ok (draft ++ [{ id := i, name := tc.name.getD "",
                               arguments := "" }])
  | none =>
    match tc.arguments with
    | some args =>
      if args == "" then .ok draft       -- `if arguments:` skips falsy args
      else
        match draft.getLast? with
        | some last =>
          .ok (draft.dropLast ++
            [{ last with arguments := last.arguments ++ args }])
        | none => .error "IndexError: list index out of range"
    | none => .ok draft

/-- All fragments of one choice, aborting at the first raised error. -/
def applyToolDeltas (draft : List DraftToolCall) :
    List DeltaToolCall → Except String (List DraftToolCall)
  | [] => .ok draft
  | tc :: tcs =>
    match applyToolDelta draft tc with
    | .ok d2 => applyToolDeltas d2 tcs
    | .error e => .error e

/-- Processing one choice (chat_service.py lines 314-380): a `stop` finish
marks completion; a `tool_calls` finish announces every accumulated draft
(`9:`) and then executes each one (`a:`, with an error field on failure);
a chunk with tool-call fragments accumulates them; anything else emits one
`0:` content frame.  `.error` models an uncaught IndexError that aborts the
stream. -/
def processChoice (execTool : DraftToolCall → Except String String)
    (st : StreamState) (c : StreamChoice) :
    Except Unit (StreamState × List Frame) :=
  match c.finish_reason with
  | some "stop" => .ok ({ st with stream_completed := true }, [])
  | some "tool_calls" =>
    let announce := st.draft_tool_calls.map
      (fun tc => Frame.toolCall tc.id tc.name tc.arguments)
    let outcomes := st.draft_tool_calls.map
      (fun tc =>
        match execTool tc with
        | .ok r => Frame.toolResult tc.id tc.name tc.arguments r
        | .error e => Frame.toolResultErr tc.id tc.name tc.arguments e)
    .ok (st, announce ++ outcomes)
  | _ =>
    if !c.tool_calls.isEmpty then
      match applyToolDeltas st.draft_tool_calls c.tool_calls with
      | .ok d2 => .ok ({ st with draft_tool_calls := d2 }, [])
      | .error _ => .error ()
    else
      .ok (st, [Frame.text (c.content.getD "")])

/-- Processing the choices of one chunk in order; the third component
reports an abort (the exception escapes to the outer handler, which emits no
further data frames). -/
def processChoices (execTool : DraftToolCall → Except String String)
    (st : StreamState) :
    List StreamChoice → StreamState × List Frame × Bool
  | [] => (st, [], false)
  | c :: cs =>
    match processChoice execTool st c with
    | .error _ => (st, [], true)
    | .ok (st1, fs) =>
      let rest := processChoices execTool st1 cs
      (rest.1, fs ++ rest.2.1, rest.2.2)

/-- Processing one chunk (chat_service.py lines 304-393): its choices in
order, then — when the chunk has an empty choice list and carries usage —
the terminal `d:` frame, whose finish reason is `"tool-calls"` exactly when
draft tool calls have accumulated. -/
def processChunk (execTool : DraftToolCall → Except String String)
    (st : StreamState) (ch : StreamChunk) :
    StreamState × List Frame × Bool :=
  let r := processChoices execTool st ch.choices
  if r.2.2 then r
  else
    match ch.usage with
    | some u =>
      if ch.choices.isEmpty then
        ({ r.1 with stream_completed := true },
         r.2.1 ++
           [Frame.finish
             (if 0 < r.1.draft_tool_calls.length then "tool-calls"
              else "stop")
             u.prompt_tokens u.completion_tokens],
         false)
      else (r.1, r.2.1, false)
    | none => (r.1, r.2.1, false)

/-- The whole `for chunk in stream` loop of the data protocol. -/
def runDataProtocol (execTool : DraftToolCall → Except String String) :
    List StreamChunk → StreamState → List Frame × StreamState × Bool
  | [], st => ([], st, false)
  | ch :: rest, st =>
    let r := processChunk execTool st ch
    if r.2.2 then (r.2.1, r.1, true)
    else
      let r2 := runDataProtocol execTool rest r.1
      (r.2.1 ++ r2.1, r2.2.1, r2.2.2)

/-- `stream_text(messages, protocol='data', ...)`, restricted to the frames
it yields for a given upstream chunk list (chat_service.py lines 301-406):
the emitted frames, the final loop state and whether the loop aborted. -/
def stream_text_data_frames
    (execTool : DraftToolCall → Except String String)
    (chunks : List StreamChunk) : List Frame × StreamState × Bool :=
  runDataProtocol execTool chunks
    { draft_tool_calls := [], stream_completed := false }

/-- A choice carrying at least one id-bearing tool-call fragment. -/
def hasIdDelta (c : StreamChoice) : Bool :=
  c.tool_calls.any (fun tc => tc.id.isSome)

/-- A chunk carrying at least one id-bearing tool-call fragment. -/
def chunkHasIdDelta (ch : StreamChunk) : Bool :=
  ch.choices.any hasIdDelta

/-- A chunk carrying a `tool_calls` finish choice. -/
def chunkHasToolFinish (ch : StreamChunk) : Bool :=
  ch.choices.any (fun c => c.finish_reason == some "tool_calls")

lemma applyToolDelta_mono {draft d2 : List DraftToolCall} {tc : DeltaToolCall}
    (h : applyToolDelta draft tc = .ok d2) : draft.length ≤ d2.length := by
  unfold applyToolDelta at h
  cases hid : tc.id with
  | some i => simp only [hid] at h; injection h with h; rw [← h]; simp
  | none =>
    simp only [hid] at h
    cases harg : tc.arguments with
    | none => simp only [harg] at h; injection h with h; rw [h]
    | some args =>
      simp only [harg] at h
      by_cases hempty : (args == "") = true
      · rw [if_pos hempty] at h; injection h with h; rw [h]
      · rw [if_neg hempty] at h
        cases hlast : draft.getLast? with
        | none => simp only [hlast] at h; cases h
        | some last =>
          simp only [hlast] at h
          injection h with h
          rw [← h]
          simp only [List.length_append, List.length_cons, List.length_nil]
          have : draft ≠ [] := by
            intro hc; rw [hc] at hlast; simp at hlast
          have := List.length_dropLast draft
          omega

lemma applyToolDelta_push {draft d2 : List DraftToolCall} {tc : DeltaToolCall}
    (h : applyToolDelta draft tc = .ok d2) (hne : d2 ≠ []) :
    draft ≠ [] ∨ tc.id.isSome = true := by
  unfold applyToolDelta at h
  cases hid : tc.id with
  | some i => right; simp [hid]
  | none =>
    left
    simp only [hid] at h
    cases harg : tc.arguments with
    | none => simp only [harg] at h; injection h with h; rw [h]; exact hne
    | some args =>
      simp only [harg] at h
      by_cases hempty : (args == "") = true
      · rw [if_pos hempty] at h; injection h with h; rw [h]; exact hne
      · rw [if_neg hempty] at h
        cases hlast : draft.getLast? with
        | none => simp only [hlast] at h; cases h
        | some last =>
          intro hc; rw [hc] at hlast; simp at hlast

lemma applyToolDeltas_mono {draft d2 : List DraftToolCall}
    {tcs : List DeltaToolCall}
    (h : applyToolDeltas draft tcs = .ok d2) : draft.length ≤ d2.length := by
  induction tcs generalizing draft with
  | nil => unfold applyToolDeltas at h; injection h with h; rw [h]
  | cons tc rest ih =>
    unfold applyToolDeltas at h
    cases hstep : applyToolDelta draft tc with
    | error e => simp only [hstep] at h; cases h
    | ok dmid =>
      simp only [hstep] at h
      exact le_trans (applyToolDelta_mono hstep) (ih h)

lemma applyToolDeltas_push {draft d2 : List DraftToolCall}
    {tcs : List DeltaToolCall}
    (h : applyToolDeltas draft tcs = .ok d2) (hne : d2 ≠ []) :
    draft ≠ [] ∨ ∃ tc ∈ tcs, tc.id.isSome = true := by
  induction tcs generalizing draft with
  | nil =>
    unfold applyToolDeltas at h
    injection h with h
    left; rw [h]; exact hne
  | cons tc rest ih =>
    unfold applyToolDeltas at h
    cases hstep : applyToolDelta draft tc with
    | error e => simp only [hstep] at h; cases h
    | ok dmid =>
      simp only [hstep] at h
      rcases ih h with hmid | ⟨tc2, htc2, hid2⟩
      · rcases applyToolDelta_push hstep hmid with hd | hid
        · exact Or.inl hd
        · exact Or.inr ⟨tc, by simp, hid⟩
      · exact Or.inr ⟨tc2, by simp [htc2], hid2⟩

lemma processChoice_mono {execTool : DraftToolCall → Except String String}
    {st st1 : StreamState} {c : StreamChoice} {fs : List Frame}
    (h : processChoice execTool st c = .ok (st1, fs)) :
    st.draft_tool_calls.length ≤ st1.draft_tool_calls.length := by
  unfold processChoice at h
  split at h
  · injection h with h
    injection h with h1 h2
    rw [← h1]
  · injection h with h
    injection h with h1 h2
    rw [← h1]
  · by_cases htc : c.tool_calls.isEmpty = true
    · simp only [htc] at h
      injection h with h
      injection h with h1 h2
      rw [← h1]
    · simp only [htc] at h
      cases hap : applyToolDeltas st.draft_tool_calls c.tool_calls with
      | error e => simp only [hap] at h; cases h
      | ok d2 =>
        simp only [hap] at h
        injection h with h
        injection h with h1 h2
        rw [← h1]
        exact applyToolDeltas_mono hap

lemma processChoice_no_finish
    {execTool : DraftToolCall → Except String String}
    {st st1 : StreamState} {c : StreamChoice} {fs : List Frame}
    (h : processChoice execTool st c = .ok (st1, fs)) :
    ∀ f ∈ fs, isFinishFrame f = false := by
  unfold processChoice at h
  split at h
  · injection h with h
    injection h with h1 h2
    rw [← h2]
    intro f hf
    cases hf
  · injection h with h
    injection h with h1 h2
    rw [← h2]
    intro f hf
    rcases List.mem_append.mp hf with hm | hm
    · obtain ⟨tc, _, hvf⟩ := List.mem_map.mp hm
      rw [← hvf]
      rfl
    · obtain ⟨tc, _, hvf⟩ := List.mem_map.mp hm
      rw [← hvf]
      cases hout : execTool tc <;> simp [hout, isFinishFrame]
  · by_cases htc : c.tool_calls.isEmpty = true
    · simp only [htc] at h
      injection h with h
      injection h with h1 h2
      rw [← h2]
      intro f hf
      rw [List.mem_singleton] at hf
      rw [hf]
      rfl
    · simp only [htc] at h
      cases hap : applyToolDeltas st.draft_tool_calls c.tool_calls with
      | error e => simp only [hap] at h; cases h
      | ok d2 =>
        simp only [hap] at h
        injection h with h
        injection h with h1 h2
        rw [← h2]
        intro f hf
        cases hf

lemma processChoice_toolcall_implies
    {execTool : DraftToolCall → Except String String}
    {st st1 : StreamState} {c : StreamChoice} {fs : List Frame}
    (h : processChoice execTool st c = .ok (st1, fs))
    (hf : fs.any isToolCallFrame = true) :
    st1.draft_tool_calls ≠ [] := by
  unfold processChoice at h
  split at h
  · injection h with h
    injection h with h1 h2
    rw [← h2] at hf
    simp at hf
  · injection h with h
    injection h with h1 h2
    obtain ⟨f, hmem, _⟩ := List.any_eq_true.mp hf
    rw [← h2] at hmem
    have hdne : st.draft_tool_calls ≠ [] := by
      intro hc
      rw [hc] at hmem
      simp at hmem
    rw [← h1]
    exact hdne
  · by_cases htc : c.tool_calls.isEmpty = true
    · simp only [htc] at h
      injection h with h
      injection h with h1 h2
      rw [← h2] at hf
      simp [isToolCallFrame] at hf
    · simp only [htc] at h
      cases hap : applyToolDeltas st.draft_tool_calls c.tool_calls with
      | error e => simp only [hap] at h; cases h
      | ok d2 =>
        simp only [hap] at h
        injection h with h
        injection h with h1 h2
        rw [← h2] at hf
        simp at hf

lemma processChoice_emit
    {execTool : DraftToolCall → Except String String}
    {st : StreamState} {c : StreamChoice}
    (hfr : c.finish_reason = some "tool_calls")
    (hne : st.draft_tool_calls ≠ []) :
    ∃ fs, processChoice execTool st c = .ok (st, fs) ∧
      fs.any isToolCallFrame = true := by
  unfold processChoice
  rw [hfr]
  refine ⟨_, rfl, ?_⟩
  rw [List.any_eq_true]
  obtain ⟨tc, htc⟩ := List.exists_mem_of_ne_nil _ hne
  exact ⟨Frame.toolCall tc.id tc.name tc.arguments,
    List.mem_append_left _ (List.mem_map.mpr ⟨tc, htc, rfl⟩), rfl⟩

lemma processChoice_push_source
    {execTool : DraftToolCall → Except String String}
    {st st1 : StreamState} {c : StreamChoice} {fs : List Frame}
    (h : processChoice execTool st c = .ok (st1, fs))
    (hne : st1.draft_tool_calls ≠ []) :
    st.draft_tool_calls ≠ [] ∨ hasIdDelta c = true := by
  unfold processChoice at h
  split at h
  · injection h with h
    injection h with h1 h2
    left
    rw [← h1] at hne
    exact hne
  · injection h with h
    injection h with h1 h2
    left
    rw [← h1] at hne
    exact hne
  · by_cases htc : c.tool_calls.isEmpty = true
    · simp only [htc] at h
      injection h with h
      injection h with h1 h2
      left
      rw [← h1] at hne
      exact hne
    · simp only [htc] at h
      cases hap : applyToolDeltas st.draft_tool_calls c.tool_calls with
      | error e => simp only [hap] at h; cases h
      | ok d2 =>
        simp only [hap] at h
        injection h with h
        injection h with h1 h2
        rw [← h1] at hne
        rcases applyToolDeltas_push hap hne with hd | ⟨tc, htcm, hid⟩
        · exact Or.inl hd
        · right
          unfold hasIdDelta
          rw [List.any_eq_true]
          exact ⟨tc, htcm, hid⟩

lemma processChoices_mono
    {execTool : DraftToolCall → Except String String}
    {st : StreamState} (cs : List StreamChoice) :
    st.draft_tool_calls.length ≤
      (processChoices execTool st cs).1.draft_tool_calls.length := by
  induction cs generalizing st with
  | nil => simp [processChoices]
  | cons c rest ih =>
    unfold processChoices
    cases hstep : processChoice execTool st c with
    | error e => simp
    | ok p =>
      simp only []
      exact le_trans (@processChoice_mono execTool st p.1 c p.2
        (by rw [hstep])) ih

lemma processChoices_no_finish
    {execTool : DraftToolCall → Except String String}
    {st : StreamState} (cs : List StreamChoice) :
    ∀ f ∈ (processChoices execTool st cs).2.1, isFinishFrame f = false := by
  induction cs generalizing st with
  | nil => simp [processChoices]
  | cons c rest ih =>
    unfold processChoices
    cases hstep : processChoice execTool st c with
    | error e => simp
    | ok p =>
      simp only []
      intro f hf
      rcases List.mem_append.mp hf with hm | hm
      · exact @processChoice_no_finish execTool st p.1 c p.2
          (by rw [hstep]) f hm
      · exact ih f hm

lemma processChoices_toolcall_implies
    {execTool : DraftToolCall → Except String String}
    {st : StreamState} (cs : List StreamChoice)
    (hf : (processChoices execTool st cs).2.1.any isToolCallFrame = true) :
    (processChoices execTool st cs).1.draft_tool_calls ≠ [] := by
  induction cs generalizing st with
  | nil => simp [processChoices] at hf
  | cons c rest ih =>
    unfold processChoices at hf ⊢
    cases hstep : processChoice execTool st c with
    | error e => rw [hstep] at hf; simp at hf
    | ok p =>
      rw [hstep] at hf
      simp only [List.any_append, Bool.or_eq_true] at hf
      simp only []
      rcases hf with hleft | hright
      · have hp1 : p.1.draft_tool_calls ≠ [] :=
          processChoice_toolcall_implies (by rw [hstep]) hleft
        have hmono := @processChoices_mono execTool p.1 rest
        intro hc
        rw [hc] at hmono
        simp only [List.length_nil, Nat.le_zero] at hmono
        exact hp1 (List.length_eq_zero.mp hmono)
      · exact ih hright

lemma processChoices_emit
    {execTool : DraftToolCall → Except String String}
    {st : StreamState} (cs : List StreamChoice)
    (hne : st.draft_tool_calls ≠ [])
    (hex : ∃ c ∈ cs, c.finish_reason = some "tool_calls")
    (hnoabort : (processChoices execTool st cs).2.2 = false) :
    (processChoices execTool st cs).2.1.any isToolCallFrame = true := by
  induction cs generalizing st with
  | nil => simp at hex
  | cons c rest ih =>
    obtain ⟨c0, hc0m, hc0f⟩ := hex
    unfold processChoices at hnoabort ⊢
    rcases List.mem_cons.mp hc0m with hc0 | hc0
    · subst hc0
      obtain ⟨fs, hok, hany⟩ := @processChoice_emit execTool st _ hc0f hne
      rw [hok] at hnoabort ⊢
      simp only [List.any_append, Bool.or_eq_true]
      exact Or.inl hany
    · cases hstep : processChoice execTool st c with
      | error e => rw [hstep] at hnoabort; simp at hnoabort
      | ok p =>
        rw [hstep] at hnoabort
        simp only [] at hnoabort ⊢
        simp only [List.any_append, Bool.or_eq_true]
        right
        have hp1 : p.1.draft_tool_calls ≠ [] := by
          have hmono := @processChoice_mono execTool st p.1 c p.2
            (by rw [hstep])
          intro hc
          rw [hc] at hmono
          simp only [List.length_nil, Nat.le_zero] at hmono
          exact hne (List.length_eq_zero.mp hmono)
        exact ih hp1 ⟨c0, hc0, hc0f⟩ hnoabort

lemma processChoices_push_source
    {execTool : DraftToolCall → Except String String}
    {st : StreamState} (cs : List StreamChoice)
    (hne : (processChoices execTool st cs).1.draft_tool_calls ≠ []) :
    st.draft_tool_calls ≠ [] ∨ ∃ c ∈ cs, hasIdDelta c = true := by
  induction cs generalizing st with
  | nil =>
    unfold processChoices at hne
    exact Or.inl hne
  | cons c rest ih =>
    unfold processChoices at hne
    cases hstep : processChoice execTool st c with
    | error e =>
      rw [hstep] at hne
      exact Or.inl hne
    | ok p =>
      rw [hstep] at hne
      simp only [] at hne
      rcases ih hne with hmid | ⟨c2, hc2, hid2⟩
      · rcases processChoice_push_source (by rw [hstep]) hmid with hd | hid
        · exact Or.inl hd
        · exact Or.inr ⟨c, by simp, hid⟩
      · exact Or.inr ⟨c2, by simp [hc2], hid2⟩

lemma processChunk_state
    (execTool : DraftToolCall → Except String String)
    (st : StreamState) (ch : StreamChunk) :
    (processChunk execTool st ch).1.draft_tool_calls =
      (processChoices execTool st ch.choices).1.draft_tool_calls := by
  simp only [processChunk]
  by_cases hab : (processChoices execTool st ch.choices).2.2 = true
  · simp only [hab, if_true]
  · rw [Bool.not_eq_true] at hab
    simp only [hab, Bool.false_eq_true, if_false]
    cases hu : ch.usage with
    | none => rfl
    | some u =>
      by_cases hemp : ch.choices.isEmpty = true
      · simp only [hemp, if_true]
      · simp only [hemp, Bool.false_eq_true, if_false]

lemma processChunk_abort
    (execTool : DraftToolCall → Except String String)
    (st : StreamState) (ch : StreamChunk) :
    (processChunk execTool st ch).2.2 =
      (processChoices execTool st ch.choices).2.2 := by
  simp only [processChunk]
  by_cases hab : (processChoices execTool st ch.choices).2.2 = true
  · simp only [hab, if_true]
  · rw [Bool.not_eq_true] at hab
    simp only [hab, Bool.false_eq_true, if_false]
    cases hu : ch.usage with
    | none => rfl
    | some u =>
      by_cases hemp : ch.choices.isEmpty = true
      · simp only [hemp, if_true]
      · simp only [hemp, Bool.false_eq_true, if_false]

lemma processChunk_frames_cases
    (execTool : DraftToolCall → Except String String)
    (st : StreamState) (ch : StreamChunk) :
    (processChunk execTool st ch).2.1 =
        (processChoices execTool st ch.choices).2.1 ∨
      (∃ u, ch.usage = some u ∧ ch.choices = [] ∧
        (processChoices execTool st ch.choices).2.2 = false ∧
        (processChunk execTool st ch).2.1 =
          (processChoices execTool st ch.choices).2.1 ++
            [Frame.finish
              (if 0 < (processChoices execTool st
                  ch.choices).1.draft_tool_calls.length then "tool-calls"
               else "stop")
              u.prompt_tokens u.completion_tokens]) := by
  by_cases hab : (processChoices execTool st ch.choices).2.2 = true
  · left
    simp only [processChunk, hab, if_true]
  · rw [Bool.not_eq_true] at hab
    cases hu : ch.usage with
    | none =>
      left
      simp only [processChunk, hab, Bool.false_eq_true, if_false, hu]
    | some u =>
      by_cases hemp : ch.choices.isEmpty = true
      · right
        refine ⟨u, rfl, List.isEmpty_iff.mp hemp, hab, ?_⟩
        simp only [processChunk, hab, Bool.false_eq_true, if_false, hu,
          hemp, if_true]
      · left
        simp only [processChunk, hab, Bool.false_eq_true, if_false, hu,
          hemp]

lemma processChunk_mono
    {execTool : DraftToolCall → Except String String}
    {st : StreamState} (ch : StreamChunk) :
    st.draft_tool_calls.length ≤
      (processChunk execTool st ch).1.draft_tool_calls.length := by
  rw [processChunk_state]
  exact processChoices_mono ch.choices

lemma processChunk_no_finish
    {execTool : DraftToolCall → Except String String}
    {st : StreamState} (ch : StreamChunk)
    (hch : ¬(ch.choices = [] ∧ ch.usage.isSome = true)) :
    ∀ f ∈ (processChunk execTool st ch).2.1, isFinishFrame f = false := by
  rcases processChunk_frames_cases execTool st ch with hfr | ⟨u, hu, hemp, _, _⟩
  · rw [hfr]
    exact processChoices_no_finish ch.choices
  · exact absurd ⟨hemp, by rw [hu]; rfl⟩ hch

lemma processChunk_toolcall_implies
    {execTool : DraftToolCall → Except String String}
    {st : StreamState} (ch : StreamChunk)
    (hf : (processChunk execTool st ch).2.1.any isToolCallFrame = true) :
    (processChunk execTool st ch).1.draft_tool_calls ≠ [] := by
  rw [processChunk_state]
  rcases processChunk_frames_cases execTool st ch with hfr | ⟨u, _, _, _, hfr⟩
  · rw [hfr] at hf
    exact processChoices_toolcall_implies ch.choices hf
  · rw [hfr] at hf
    simp only [List.any_append, Bool.or_eq_true] at hf
    rcases hf with hleft | hright
    · exact processChoices_toolcall_implies ch.choices hleft
    · simp [isToolCallFrame] at hright

lemma processChunk_emit
    {execTool : DraftToolCall → Except String String}
    {st : StreamState} (ch : StreamChunk)
    (hne : st.draft_tool_calls ≠ [])
    (hfin : chunkHasToolFinish ch = true)
    (hnoabort : (processChunk execTool st ch).2.2 = false) :
    (processChunk execTool st ch).2.1.any isToolCallFrame = true := by
  rw [processChunk_abort] at hnoabort
  have hcs : (processChoices execTool st ch.choices).2.1.any
      isToolCallFrame = true := by
    unfold chunkHasToolFinish at hfin
    obtain ⟨c0, hc0m, hc0f⟩ := List.any_eq_true.mp hfin
    exact processChoices_emit ch.choices hne
      ⟨c0, hc0m, by simpa using hc0f⟩ hnoabort
  rcases processChunk_frames_cases execTool st ch with hfr | ⟨u, _, _, _, hfr⟩
  · rw [hfr]
    exact hcs
  · rw [hfr]
    simp only [List.any_append, Bool.or_eq_true]
    exact Or.inl hcs

lemma processChunk_push_source
    {execTool : DraftToolCall → Except String String}
    {st : StreamState} (ch : StreamChunk)
    (hne : (processChunk execTool st ch).1.draft_tool_calls ≠ []) :
    st.draft_tool_calls ≠ [] ∨ chunkHasIdDelta ch = true := by
  rw [processChunk_state] at hne
  rcases processChoices_push_source ch.choices hne with hd | ⟨c, hcm, hid⟩
  · exact Or.inl hd
  · exact Or.inr (List.any_eq_true.mpr ⟨c, hcm, hid⟩)

lemma runData_append
    (execTool : DraftToolCall → Except String String)
    (l1 l2 : List StreamChunk) (st : StreamState)
    (hab : (runDataProtocol execTool (l1 ++ l2) st).2.2 = false) :
    (runDataProtocol execTool l1 st).2.2 = false ∧
      (runDataProtocol execTool l2
        (runDataProtocol execTool l1 st).2.1).2.2 = false ∧
      (runDataProtocol execTool (l1 ++ l2) st).1 =
        (runDataProtocol execTool l1 st).1 ++
          (runDataProtocol execTool l2
            (runDataProtocol execTool l1 st).2.1).1 ∧
      (runDataProtocol execTool (l1 ++ l2) st).2.1 =
        (runDataProtocol execTool l2
          (runDataProtocol execTool l1 st).2.1).2.1 := by
  induction l1 generalizing st with
  | nil =>
    rw [List.nil_append] at hab ⊢
    exact ⟨rfl, hab, (List.nil_append _).symm, rfl⟩
  | cons ch rest ih =>
    simp only [List.cons_append, runDataProtocol] at hab ⊢
    by_cases habc : (processChunk execTool st ch).2.2 = true
    · simp only [habc, if_true] at hab
      exact Bool.noConfusion hab
    · rw [Bool.not_eq_true] at habc
      simp only [habc, Bool.false_eq_true, if_false] at hab ⊢
      obtain ⟨h1, h2, h3, h4⟩ := ih (processChunk execTool st ch).1 hab
      refine ⟨h1, h2, ?_, h4⟩
      rw [List.append_assoc]
      exact congrArg _ h3

lemma runData_mono
    {execTool : DraftToolCall → Except String String}
    {st : StreamState} (chunks : List StreamChunk) :
    st.draft_tool_calls.length ≤
      (runDataProtocol execTool chunks st).2.1.draft_tool_calls.length := by
  induction chunks generalizing st with
  | nil => simp [runDataProtocol]
  | cons ch rest ih =>
    simp only [runDataProtocol]
    by_cases habc : (processChunk execTool st ch).2.2 = true
    · simp only [habc, if_true]
      exact processChunk_mono ch
    · rw [Bool.not_eq_true] at habc
      simp only [habc, Bool.false_eq_true, if_false]
      exact le_trans (processChunk_mono ch) ih

lemma runData_no_finish
    {execTool : DraftToolCall → Except String String}
    {st : StreamState} (chunks : List StreamChunk)
    (hch : ∀ ch ∈ chunks, ¬(ch.choices = [] ∧ ch.usage.isSome = true)) :
    ∀ f ∈ (runDataProtocol execTool chunks st).1,
      isFinishFrame f = false := by
  induction chunks generalizing st with
  | nil => simp [runDataProtocol]
  | cons ch rest ih =>
    simp only [runDataProtocol]
    by_cases habc : (processChunk execTool st ch).2.2 = true
    · simp only [habc, if_true]
      exact processChunk_no_finish ch (hch ch (by simp))
    · rw [Bool.not_eq_true] at habc
      simp only [habc, Bool.false_eq_true, if_false]
      intro f hf
      rcases List.mem_append.mp hf with hm | hm
      · exact processChunk_no_finish ch (hch ch (by simp)) f hm
      · exact ih (fun c hc => hch c (by simp [hc])) f hm

lemma runData_toolcall_implies
    {execTool : DraftToolCall → Except String String}
    {st : StreamState} (chunks : List StreamChunk)
    (hf : (runDataProtocol execTool chunks st).1.any isToolCallFrame = true) :
    (runDataProtocol execTool chunks st).2.1.draft_tool_calls ≠ [] := by
  induction chunks generalizing st with
  | nil => simp [runDataProtocol] at hf
  | cons ch rest ih =>
    simp only [runDataProtocol] at hf ⊢
    by_cases habc : (processChunk execTool st ch).2.2 = true
    · simp only [habc, if_true] at hf ⊢
      exact processChunk_toolcall_implies ch hf
    · rw [Bool.not_eq_true] at habc
      simp only [habc, Bool.false_eq_true, if_false] at hf ⊢
      simp only [List.any_append, Bool.or_eq_true] at hf
      rcases hf with hleft | hright
      · have hne := processChunk_toolcall_implies ch hleft
        have hmono := @runData_mono execTool
          (processChunk execTool st ch).1 rest
        intro hc
        rw [hc] at hmono
        simp only [List.length_nil, Nat.le_zero] at hmono
        exact hne (List.length_eq_zero.mp hmono)
      · exact ih hright

lemma runData_emit
    {execTool : DraftToolCall → Except String String}
    {st : StreamState} (chunks : List StreamChunk)
    (hne : st.draft_tool_calls ≠ [])
    (hex : ∃ ch ∈ chunks, chunkHasToolFinish ch = true)
    (hnoabort : (runDataProtocol execTool chunks st).2.2 = false) :
    (runDataProtocol execTool chunks st).1.any isToolCallFrame = true := by
  induction chunks generalizing st with
  | nil => simp at hex
  | cons ch rest ih =>
    obtain ⟨ch0, hch0m, hch0f⟩ := hex
    simp only [runDataProtocol] at hnoabort ⊢
    by_cases habc : (processChunk execTool st ch).2.2 = true
    · simp only [habc, if_true] at hnoabort
      exact Bool.noConfusion hnoabort
    · rw [Bool.not_eq_true] at habc
      simp only [habc, Bool.false_eq_true, if_false] at hnoabort ⊢
      simp only [List.any_append, Bool.or_eq_true]
      rcases List.mem_cons.mp hch0m with hc0 | hc0
      · subst hc0
        exact Or.inl (processChunk_emit ch0 hne hch0f (by rw [habc]))
      · right
        have hp1 : (processChunk execTool st ch).1.draft_tool_calls ≠ [] := by
          have hmono := @processChunk_mono execTool st ch
          intro hc
          rw [hc] at hmono
          simp only [List.length_nil, Nat.le_zero] at hmono
          exact hne (List.length_eq_zero.mp hmono)
        exact ih hp1 ⟨ch0, hc0, hch0f⟩ hnoabort

lemma runData_find_push
    {execTool : DraftToolCall → Except String String}
    {st : StreamState} (chunks : List StreamChunk)
    (hemp : st.draft_tool_calls = [])
    (hne : (runDataProtocol execTool chunks st).2.1.draft_tool_calls ≠ []) :
    ∃ pre ch post, chunks = pre ++ ch :: post ∧ chunkHasIdDelta ch = true ∧
      (runDataProtocol execTool (pre ++ [ch]) st).2.1.draft_tool_calls
        ≠ [] := by
  induction chunks generalizing st with
  | nil =>
    simp only [runDataProtocol] at hne
    exact absurd hemp hne
  | cons ch rest ih =>
    by_cases hfirst :
        (processChunk execTool st ch).1.draft_tool_calls = []
    · simp only [runDataProtocol] at hne
      by_cases habc : (processChunk execTool st ch).2.2 = true
      · simp only [habc, if_true] at hne
        exact absurd hfirst hne
      · rw [Bool.not_eq_true] at habc
        simp only [habc, Bool.false_eq_true, if_false] at hne
        obtain ⟨pre, ch2, post, hsplit, hid, hst⟩ :=
          @ih (processChunk execTool st ch).1 hfirst hne
        refine ⟨ch :: pre, ch2, post, by rw [hsplit]; rfl, hid, ?_⟩
        simp only [List.cons_append, runDataProtocol, habc,
          Bool.false_eq_true, if_false]
        exact hst
    · rcases processChunk_push_source ch hfirst with hd | hid
      · exact absurd hemp hd
      · refine ⟨[], ch, rest, rfl, hid, ?_⟩
        simp only [List.nil_append, runDataProtocol]
        by_cases habc : (processChunk execTool st ch).2.2 = true
        · simp only [habc, if_true]
          exact hfirst
        · rw [Bool.not_eq_true] at habc
          simp only [habc, Bool.false_eq_true, if_false]
          exact hfirst

lemma runData_fin_frames
    (execTool : DraftToolCall → Except String String)
    (stB : StreamState) (fin : StreamChunk) (u : StreamUsage)
    (hc : fin.choices = []) (hu : fin.usage = some u) :
    (runDataProtocol execTool [fin] stB).1 =
      [Frame.finish
        (if 0 < stB.draft_tool_calls.length then "tool-calls" else "stop")
        u.prompt_tokens u.completion_tokens] := by
  simp only [runDataProtocol, processChunk, hc, hu, processChoices,
    List.isEmpty_nil, if_true, Bool.false_eq_true, if_false,
    List.nil_append, List.append_nil]

/-- C5: for every data-protocol stream whose upstream chunk list follows the
§6 contract — the terminal chunk (empty `choices`, cumulative usage) comes
last and only last, every id-bearing tool-call fragment is followed by a
later `tool_calls` finish chunk — and whose run raises no error, the
emitted frames end with exactly one `d:` terminal frame, all `0:`/`9:`/`a:`
frames precede it, and its `finishReason` is `"tool-calls"` exactly when at
least one `9:` tool-call frame was emitted earlier in the stream (else
`"stop"`). -/
theorem C5_data_protocol_terminal_frame
    (execTool : DraftToolCall → Except String String)
    (body : List StreamChunk) (fin : StreamChunk) (u : StreamUsage)
    (hfinc : fin.choices = [])
    (hfinu : fin.usage = some u)
    (hbody : ∀ ch ∈ body, ¬(ch.choices = [] ∧ ch.usage.isSome = true))
    (hnoabort : (stream_text_data_frames execTool (body ++ [fin])).2.2 =
      false)
    (horder : ∀ pre ch post, body = pre ++ ch :: post →
      chunkHasIdDelta ch = true →
      ∃ ch2 ∈ post, chunkHasToolFinish ch2 = true) :
    ∃ r, (stream_text_data_frames execTool (body ++ [fin])).1.getLast? =
        some (Frame.finish r u.prompt_tokens u.completion_tokens) ∧
      (∀ f ∈ (stream_text_data_frames execTool (body ++ [fin])).1.dropLast,
        isFinishFrame f = false) ∧
      (r = "tool-calls" ↔
        (stream_text_data_frames execTool
          (body ++ [fin])).1.dropLast.any isToolCallFrame = true) ∧
      ((stream_text_data_frames execTool
          (body ++ [fin])).1.dropLast.any isToolCallFrame = false →
        r = "stop") := by
  unfold stream_text_data_frames at hnoabort ⊢
  obtain ⟨hab1, hab2, hfr, _⟩ := runData_append execTool body [fin]
    { draft_tool_calls := [], stream_completed := false } hnoabort
  set st0 : StreamState :=
    { draft_tool_calls := [], stream_completed := false } with hst0
  set stB := (runDataProtocol execTool body st0).2.1 with hstB
  set bodyF := (runDataProtocol execTool body st0).1 with hbodyF
  rw [runData_fin_frames execTool stB fin u hfinc hfinu] at hfr
  set r : String :=
    if 0 < stB.draft_tool_calls.length then "tool-calls" else "stop"
    with hrdef
  have hiff : r = "tool-calls" ↔
      (runDataProtocol execTool (body ++ [fin]) st0).1.dropLast.any
        isToolCallFrame = true := by
    rw [hfr, List.dropLast_concat]
    constructor
    · intro hrt
      have hne : stB.draft_tool_calls ≠ [] := by
        rw [hrdef] at hrt
        by_cases hlen : 0 < stB.draft_tool_calls.length
        · intro hc
          rw [hc] at hlen
          simp at hlen
        · rw [if_neg hlen] at hrt
          simp at hrt
      obtain ⟨pre, ch, post, hsplit, hid, hst⟩ :=
        runData_find_push body rfl hne
      obtain ⟨ch2, hch2m, hch2f⟩ := horder pre ch post hsplit hid
      have hsplit2 : body = (pre ++ [ch]) ++ post := by
        rw [hsplit, List.append_assoc, List.singleton_append]
      rw [hsplit2] at hab1
      obtain ⟨hA, hB, hF, hS⟩ := runData_append execTool (pre ++ [ch])
        post st0 hab1
      have hemitted := runData_emit post hst ⟨ch2, hch2m, hch2f⟩ hB
      rw [hbodyF, hsplit2, hF]
      simp only [List.any_append, Bool.or_eq_true]
      exact Or.inr hemitted
    · intro hany
      have hne := runData_toolcall_implies body hany
      rw [hrdef]
      rw [if_pos ?_]
      rcases Nat.eq_zero_or_pos stB.draft_tool_calls.length with hz | hp
      · exact absurd (List.length_eq_zero.mp hz) hne
      · exact hp
  refine ⟨r, ?_, ?_, hiff, ?_⟩
  · rw [hfr]
    exact List.getLast?_concat _
  · rw [hfr, List.dropLast_concat]
    exact runData_no_finish body hbody
  · intro hnone
    by_cases hlen : 0 < stB.draft_tool_calls.length
    · exfalso
      have hrt : r = "tool-calls" := by
        rw [hrdef]
        rw [if_pos hlen]
      rw [hiff] at hrt
      rw [hnone] at hrt
      exact Bool.noConfusion hrt
    · rw [hrdef]
      rw [if_neg hlen]

/-- The tool-call fragment sent by the C5 witness stream. -/
def c5Fragment : DeltaToolCall :=
  { id := some "t1", name := some "get_current_weather",
    arguments := some "" }

/-- Witness stream for C5: one chunk carrying a tool-call fragment. -/
def c5Delta : StreamChunk :=
  { choices := [{ finish_reason := none, content := none,
                  tool_calls := [c5Fragment] }],
    usage := none }

/-- Witness stream for C5: the `tool_calls` finish chunk. -/
def c5Finish : StreamChunk :=
  { choices := [{ finish_reason := some "tool_calls", content := none,
                  tool_calls := [] }],
    usage := none }

/-- Witness stream for C5: the terminal usage chunk. -/
def c5Fin : StreamChunk :=
  { choices := [],
    usage := some { prompt_tokens := 7, completion_tokens := 3 } }

/-- Witness tool executor for C5: the weather tool returns a result. -/
def c5Exec : DraftToolCall → Except String String :=
  fun _ => .ok "42"

lemma c5_order : ∀ pre ch post,
    [c5Delta, c5Finish] = pre ++ ch :: post →
    chunkHasIdDelta ch = true →
    ∃ ch2 ∈ post, chunkHasToolFinish ch2 = true := by
  intro pre ch post heq hid
  match pre with
  | [] =>
    rw [List.nil_append] at heq
    injection heq with h1 h2
    refine ⟨c5Finish, ?_, by decide⟩
    rw [← h2]
    simp
  | [a] =>
    rw [List.cons_append, List.nil_append] at heq
    injection heq with h1 heq2
    injection heq2 with h2 h3
    rw [← h2] at hid
    exact absurd hid (by decide)
  | a :: b :: rest =>
    rw [List.cons_append, List.cons_append] at heq
    injection heq with h1 heq2
    injection heq2 with h2 heq3
    simp at heq3

set_option maxRecDepth 8192 in
/-- Witness for C5 at a concrete stream: a tool-call fragment, a
`tool_calls` finish chunk and the terminal usage chunk yield frames ending
in a single `d:` frame with `finishReason` `"tool-calls"` and a `9:` frame
before it. -/
theorem C5_data_protocol_witness :
    (stream_text_data_frames c5Exec
        ([c5Delta, c5Finish] ++ [c5Fin])).1.getLast? =
      some (Frame.finish "tool-calls" 7 3) ∧
    (∀ f ∈ (stream_text_data_frames c5Exec
        ([c5Delta, c5Finish] ++ [c5Fin])).1.dropLast,
      isFinishFrame f = false) ∧
    ((stream_text_data_frames c5Exec
        ([c5Delta, c5Finish] ++ [c5Fin])).1.dropLast.any
      isToolCallFrame = true) := by
  obtain ⟨r, h1, h2, h3, h4⟩ := C5_data_protocol_terminal_frame c5Exec
    [c5Delta, c5Finish] c5Fin { prompt_tokens := 7, completion_tokens := 3 }
    rfl rfl (by decide) rfl c5_order
  have hconc : (stream_text_data_frames c5Exec
      ([c5Delta, c5Finish] ++ [c5Fin])).1.getLast? =
      some (Frame.finish "tool-calls" 7 3) := by decide
  have hr : r = "tool-calls" := by
    rw [h1] at hconc
    injection hconc with hfr
    injection hfr
  subst hr
  exact ⟨h1, h2, h3.mp rfl⟩
